import Mathlib

/-!
Shallow embedding of the Tetris rules engine of this repository
(`src/js/grid.js`, `src/js/tetromino.js`, and the `Stats` class).

Modelling conventions:
* JS numbers used as integers become `Int` (positions, indices, timestamps)
  or `Nat` (sizes, loop counters that are always non-negative).
* RGBA float quadruples become quadruples of `ℚ`; no arithmetic is performed
  on colors in the verified code paths, only copies and constants.
* The `Float32Array` of per-cell RGBA data becomes a `List Color` (one RGBA
  quadruple per cell); the preview buffer of `getHeldTetrominoColors`, whose
  flat length is part of the spec, stays a flat `List ℚ`.
* `Math.random()` is modelled by a stream `rand : List Nat` carried in the
  state; each draw consumes the head `r` and yields `r % bound`, covering
  every outcome the JS code can produce.
* `Date.now()` becomes an explicit `now : Int` argument of `update`.
* JS `Set` insertion (shadow cells) is a deduplicating append on a list.
* Out-of-range array writes (which never occur on the verified paths, since
  every write is guarded by a validity check) are modelled as no-ops,
  matching `Float32Array` semantics.
* The two unbounded `while` descents (hard drop) and the row-scan loop are
  given fuel `height`, which is shown below to be enough whenever the piece
  has at least one cell.
-/

namespace WebgpuTetris

/-- The seven tetromino shape tags. -/
inductive Shape
  | I | O | T | S | Z | J | L
deriving DecidableEq, Repr

/-- An RGBA color, each channel a rational (modelling the JS floats). -/
structure Color where
  r : ℚ
  g : ℚ
  b : ℚ
  a : ℚ
deriving DecidableEq, Repr

/-- The gray used for empty playfield cells (0.5, 0.5, 0.5, 1.0). -/
def grayColor : Color := ⟨1/2, 1/2, 1/2, 1⟩

namespace Tetromino

/-- `Tetromino.CELL_POSITIONS`: relative (rowOffset, colOffset) cells. -/
def cellPositions : Shape → List (Int × Int)
  | .I => [(0, -1), (0, 0), (0, 1), (0, 2)]
  | .O => [(-1, 0), (-1, 1), (0, 0), (0, 1)]
  | .T => [(-1, 0), (0, -1), (0, 0), (0, 1)]
  | .S => [(-1, 0), (-1, 1), (0, -1), (0, 0)]
  | .Z => [(-1, -1), (-1, 0), (0, 0), (0, 1)]
  | .J => [(-1, -1), (0, -1), (0, 0), (0, 1)]
  | .L => [(-1, 1), (0, -1), (0, 0), (0, 1)]

/-- `Tetromino.COLORS`. -/
def color : Shape → Color
  | .I => ⟨0, 1, 1, 1⟩
  | .O => ⟨1, 1, 0, 1⟩
  | .T => ⟨1, 0, 1, 1⟩
  | .S => ⟨0, 1, 0, 1⟩
  | .Z => ⟨1, 0, 0, 1⟩
  | .J => ⟨0, 0, 1, 1⟩
  | .L => ⟨1, 647/1000, 0, 1⟩

/-- Minimum row offset of a shape (`BOUNDING_BOXES[shape].minRow`). -/
def minRow (s : Shape) : Int :=
  ((cellPositions s).map Prod.fst).foldr min 0
/-- Maximum row offset of a shape. -/
def maxRow (s : Shape) : Int :=
  ((cellPositions s).map Prod.fst).foldr max (minRow s)
/-- Minimum column offset of a shape. -/
def minCol (s : Shape) : Int :=
  ((cellPositions s).map Prod.snd).foldr min 0
/-- Maximum column offset of a shape. -/
def maxCol (s : Shape) : Int :=
  ((cellPositions s).map Prod.snd).foldr max (minCol s)

/-- `Tetromino.CENTERS`: bounding-box midpoint (may be half-integer). -/
def center (s : Shape) : ℚ × ℚ :=
  (((minRow s : ℚ) + (maxRow s : ℚ)) / 2, ((minCol s : ℚ) + (maxCol s : ℚ)) / 2)

end Tetromino

/-- The four SRS rotation states '0', 'R', '2', 'L'. -/
inductive RotState
  | s0 | sR | s2 | sL
deriving DecidableEq, Repr

/-- `STATE_ORDER = ['0', 'R', '2', 'L']`. -/
def STATE_ORDER : List RotState := [.s0, .sR, .s2, .sL]

/-- `Grid.getRotationTransition`: cyclic successor/predecessor in `STATE_ORDER`.
The index arithmetic is over `Int`, as in JS, so `(0 - 1 + 4) % 4 = 3`. -/
def getRotationTransition (fromState : RotState) (clockwise : Bool) : RotState :=
  let currentIndex : Int := STATE_ORDER.indexOf fromState
  if clockwise then
    STATE_ORDER.getD ((currentIndex + 1) % 4).toNat .s0
  else
    STATE_ORDER.getD ((currentIndex - 1 + 4) % 4).toNat .s0

/-- SRS kick table for J, L, S, T, Z pieces, keyed by (fromState, toState). -/
def srsKickJLSTZ : RotState → RotState → Option (List (Int × Int))
  | .s0, .sR => some [(0, 0), (-1, 0), (-1, 1), (0, -2), (-1, -2)]
  | .s2, .sR => some [(0, 0), (-1, 0), (-1, 1), (0, -2), (-1, -2)]
  | .s0, .sL => some [(0, 0), (1, 0), (1, 1), (0, -2), (1, -2)]
  | .s2, .sL => some [(0, 0), (1, 0), (1, 1), (0, -2), (1, -2)]
  | .sR, .s0 => some [(0, 0), (1, 0), (1, -1), (0, 2), (1, 2)]
  | .sR, .s2 => some [(0, 0), (1, 0), (1, -1), (0, 2), (1, 2)]
  | .sL, .s2 => some [(0, 0), (-1, 0), (-1, -1), (0, 2), (-1, 2)]
  | .sL, .s0 => some [(0, 0), (-1, 0), (-1, -1), (0, 2), (-1, 2)]
  | _, _ => none

/-- SRS kick table for the I piece. -/
def srsKickI : RotState → RotState → Option (List (Int × Int))
  | .s0, .sR => some [(0, 0), (-2, 0), (1, 0), (-2, -1), (1, 2)]
  | .s2, .sR => some [(0, 0), (1, 0), (-2, 0), (1, -2), (-2, 1)]
  | .s0, .sL => some [(0, 0), (-1, 0), (2, 0), (-1, 2), (2, -1)]
  | .s2, .sL => some [(0, 0), (2, 0), (-1, 0), (2, 1), (-1, -2)]
  | .sR, .s0 => some [(0, 0), (2, 0), (-1, 0), (2, 1), (-1, -2)]
  | .sR, .s2 => some [(0, 0), (-1, 0), (2, 0), (-1, 2), (2, -1)]
  | .sL, .s2 => some [(0, 0), (-2, 0), (1, 0), (-2, -1), (1, 2)]
  | .sL, .s0 => some [(0, 0), (1, 0), (-2, 0), (1, -2), (-2, 1)]
  | _, _ => none

/-- `Tetromino.getKickTable`: the I piece has its own table, O has none. -/
def getKickTable : Shape → Option (RotState → RotState → Option (List (Int × Int)))
  | .I => some srsKickI
  | .O => none
  | _ => some srsKickJLSTZ

/-- `Grid.rotateRelativePosition`: rotate each (dr, dc) by ±90 degrees. -/
def rotateRelativePosition (relativePositions : List (Int × Int)) (clockwise : Bool) :
    List (Int × Int) :=
  if clockwise then
    relativePositions.map (fun p => (p.2, -p.1))
  else
    relativePositions.map (fun p => (-p.2, p.1))

/-- The `Stats` class: cumulative lines cleared and score. -/
structure Stats where
  linesCleared : Int
  score : Int
deriving DecidableEq, Repr

namespace Stats

/-- Fresh `Stats` (constructor). -/
def init : Stats := ⟨0, 0⟩

/-- `Stats.calculateBasePoints`. -/
def calculateBasePoints (count : Int) : Int :=
  if count = 1 then 100
  else if count = 2 then 300
  else if count = 3 then 500
  else if count = 4 then 800
  else count * 200

/-- `Stats.getLevel = 1 + Math.floor(linesCleared / 10)`. -/
def getLevel (s : Stats) : Int :=
  1 + Int.fdiv s.linesCleared 10

/-- `Stats.calculatePoints`: base points times current level. -/
def calculatePoints (s : Stats) (count : Int) : Int :=
  calculateBasePoints count * s.getLevel

/-- `Stats.addLinesCleared`: guard `count <= 0`, then add points (computed
from the pre-update lines total) and the line count. -/
def addLinesCleared (s : Stats) (count : Int) : Stats :=
  if count ≤ 0 then s
  else
    { linesCleared := s.linesCleared + count
      score := s.score + s.calculatePoints count }

end Stats

/-- The active falling piece (`this.currentTetromino`). The JS object holds a
reference into the fixed `TETROMINOES` table, so storing the shape tag is an
exact model. -/
structure ActivePiece where
  tetromino : Shape
  centerRow : Int
  centerCol : Int
  rotatedPositions : Option (List (Int × Int))
  rotationState : RotState
deriving DecidableEq, Repr

/-- Full observable state of the `Grid` class. -/
structure GridState where
  width : Nat
  height : Nat
  previewGridSize : Nat
  lockDelayMs : Nat
  cellColors : List Color
  isCellColored : List Bool
  currentTetromino : Option ActivePiece
  heldTetromino : Option Shape
  canHold : Bool
  shadowCells : List Int
  lockDelayStartTime : Option Int
  stats : Stats
  tetrominoBag : List Shape
  rand : List Nat
deriving DecidableEq, Repr

namespace Grid

/-- The `Grid` constructor (with the random stream that models `Math.random`). -/
def new (width height previewGridSize lockDelayMs : Nat) (rand : List Nat) : GridState :=
  { width := width
    height := height
    previewGridSize := previewGridSize
    lockDelayMs := lockDelayMs
    cellColors := List.replicate (width * height) grayColor
    isCellColored := List.replicate (width * height) false
    currentTetromino := none
    heldTetromino := none
    canHold := true
    shadowCells := []
    lockDelayStartTime := none
    stats := Stats.init
    tetrominoBag := []
    rand := rand }

/-- `Grid.getCellIndex(row, col) = row * width + col`. -/
def getCellIndex (g : GridState) (row col : Int) : Int :=
  row * g.width + col

/-- `Grid.isColored`: JS reads of a negative or too-large index yield
`undefined`, which is falsy. -/
def isColored (g : GridState) (cellIndex : Int) : Bool :=
  decide (0 ≤ cellIndex) && g.isCellColored.getD cellIndex.toNat false

/-- `Grid.setCellGray`: reset one cell to gray and uncolored. -/
def setCellGray (g : GridState) (cellIndex : Int) : GridState :=
  if 0 ≤ cellIndex then
    { g with
      cellColors := g.cellColors.set cellIndex.toNat grayColor
      isCellColored := g.isCellColored.set cellIndex.toNat false }
  else g

/-- `Grid.copyCellColor`: copy color and colored flag between cells. -/
def copyCellColor (g : GridState) (fromIndex toIndex : Int) : GridState :=
  if 0 ≤ toIndex then
    { g with
      cellColors :=
        g.cellColors.set toIndex.toNat (g.cellColors.getD fromIndex.toNat grayColor)
      isCellColored :=
        g.isCellColored.set toIndex.toNat (g.isCellColored.getD fromIndex.toNat false) }
  else g

/-- `Grid.getColoredCellCountInRow`. -/
def getColoredCellCountInRow (g : GridState) (row : Nat) : Nat :=
  (List.range g.width).countP
    (fun col : Nat => isColored g (getCellIndex g (row : Int) (col : Int)))

/-- `Grid.copyRow`: copy every cell of `sourceRow` onto `targetRow`
(no-op when they coincide). -/
def copyRow (g : GridState) (sourceRow targetRow : Nat) : GridState :=
  if sourceRow = targetRow then g
  else
    (List.range g.width).foldl
      (fun g (col : Nat) =>
        copyCellColor g (getCellIndex g (sourceRow : Int) (col : Int))
          (getCellIndex g (targetRow : Int) (col : Int)))
      g

/-- `Grid.clearRows(startRow, endRow)`: gray out all cells of the inclusive
row range. -/
def clearRows (g : GridState) (startRow endRow : Nat) : GridState :=
  (List.range' startRow (endRow + 1 - startRow)).foldl
    (fun g (row : Nat) =>
      (List.range g.width).foldl
        (fun g (col : Nat) => setCellGray g (getCellIndex g (row : Int) (col : Int))) g)
    g

/-- `Grid.isValidPosition`: inside bounds and not colored. -/
def isValidPosition (g : GridState) (row col : Int) : Bool :=
  if col < 0 || (g.width : Int) ≤ col || row < 0 || (g.height : Int) ≤ row then false
  else !(isColored g (getCellIndex g row col))

/-- `Grid.getTetrominoPositions`: absolute cells of a piece state
(`rotatedPositions` falls back to the shape's base offsets). -/
def getTetrominoPositions (p : ActivePiece) : List (Int × Int) :=
  (p.rotatedPositions.getD (Tetromino.cellPositions p.tetromino)).map
    (fun d => (p.centerRow + d.1, p.centerCol + d.2))

/-- `Grid.canPlaceTetromino`: every absolute cell is a valid position. -/
def canPlaceTetromino (g : GridState) (p : ActivePiece) : Bool :=
  (getTetrominoPositions p).all (fun rc => isValidPosition g rc.1 rc.2)

/-- Color one absolute cell with a piece color (one step of `placeTetromino`). -/
def placeCell (g : GridState) (c : Color) (rc : Int × Int) : GridState :=
  let cellIndex := getCellIndex g rc.1 rc.2
  if 0 ≤ cellIndex then
    { g with
      cellColors := g.cellColors.set cellIndex.toNat c
      isCellColored := g.isCellColored.set cellIndex.toNat true }
  else g

/-- `Grid.placeTetromino`: write the piece's 4 cells into the static grid. -/
def placeTetromino (g : GridState) (p : ActivePiece) : GridState :=
  (getTetrominoPositions p).foldl (fun g rc => placeCell g (Tetromino.color p.tetromino) rc) g

/-- One cell step of `applyEndGravity`. -/
def endGravityCell (g : GridState) (row col : Int) : GridState :=
  let cellIdx := getCellIndex g row col
  if !isColored g cellIdx then g
  else
    let cellBelowIdx := getCellIndex g (row - 1) col
    if isColored g cellBelowIdx then g
    else setCellGray (copyCellColor g cellIdx cellBelowIdx) cellIdx

/-- `Grid.applyEndGravity`: row-ascending, column-ascending single descent of
already-locked cells (runs only with no active piece). -/
def applyEndGravity (g : GridState) : GridState :=
  ((List.range g.height).drop 1).foldl
    (fun g (row : Nat) =>
      (List.range g.width).foldl
        (fun g (col : Nat) => endGravityCell g (row : Int) (col : Int)) g)
    g

/-- `Grid.clearShadow`. -/
def clearShadow (g : GridState) : GridState :=
  { g with shadowCells := [] }

/-- JS `Set.add`: append if not already present. -/
def shadowInsert (l : List Int) (i : Int) : List Int :=
  if i ∈ l then l else l ++ [i]

/-- The insertion order of `Object.keys(TETROMINOES)`. -/
def allShapes : List Shape := [.I, .O, .T, .S, .Z, .J, .L]

/-- One destructuring swap `[bag[i], bag[j]] = [bag[j], bag[i]]`. -/
def swapIdx (l : List Shape) (i j : Nat) : List Shape :=
  (l.set i (l.getD j .I)).set j (l.getD i .I)

/-- The Fisher-Yates loop of `refillBag`: iterate `i` from `length - 1` down
to 1, swapping index `i` with a random index `j ≤ i` drawn from the stream. -/
def fyLoop : Nat → List Shape → List Nat → List Shape × List Nat
  | 0, l, rand => (l, rand)
  | i + 1, l, rand => fyLoop i (swapIdx l (i + 1) (rand.headD 0 % (i + 2))) rand.tail

/-- `Grid.refillBag`: fill the bag with all 7 shapes and shuffle. -/
def refillBag (g : GridState) : GridState :=
  let shuffled := fyLoop (allShapes.length - 1) allShapes g.rand
  { g with tetrominoBag := shuffled.1, rand := shuffled.2 }

/-- `Grid.getRandomTetromino`: refill the bag when empty, then pop its last
element. (After a refill the bag has 7 elements, so the pop never sees an
empty bag; the `.getD .I` default is unreachable.) -/
def getRandomTetromino (g : GridState) : Shape × GridState :=
  let g₁ := if g.tetrominoBag.isEmpty then refillBag g else g
  let shape := g₁.tetrominoBag.getLast?.getD .I
  (shape, { g₁ with tetrominoBag := g₁.tetrominoBag.dropLast })

/-- The descent loop shared by `getHardDropPosition` and `hardDrop`:
`while (canPlace(centerRow - 1)) centerRow--`. The JS loop is unbounded; fuel
`height` is enough whenever the piece has at least one cell (proved below). -/
def dropAux (g : GridState) (p : ActivePiece) : Nat → Int → Int
  | 0, r => r
  | fuel + 1, r =>
    if canPlaceTetromino g { p with centerRow := r - 1 } then dropAux g p fuel (r - 1)
    else r

/-- `Grid.getHardDropPosition`: the active piece moved to its landing row. -/
def getHardDropPosition (g : GridState) : Option ActivePiece :=
  match g.currentTetromino with
  | none => none
  | some p => some { p with centerRow := dropAux g p g.height p.centerRow }

/-- `Grid.updateShadow`: clear the shadow, recompute the hard-drop position,
and mark its cells unless it coincides with the piece's current center. -/
def updateShadow (g : GridState) : GridState :=
  let g₀ := clearShadow g
  match g₀.currentTetromino with
  | none => g₀
  | some p =>
    match getHardDropPosition g₀ with
    | none => g₀
    | some hardDropPos =>
      if hardDropPos.centerRow = p.centerRow ∧ hardDropPos.centerCol = p.centerCol then g₀
      else
        { g₀ with
          shadowCells :=
            (getTetrominoPositions hardDropPos).foldl
              (fun l rc => shadowInsert l (getCellIndex g₀ rc.1 rc.2)) [] }

/-- The row-scan loop of `clearCompletedRows` (two-pointer compaction).
Returns (grid, writeRow, readRow, clearedCount). Fuel `height` runs the JS
loop `for (readRow; readRow < height; readRow++)` to completion. -/
def clearLoop : Nat → GridState → Nat → Nat → Nat → GridState × Nat × Nat × Nat
  | 0, g, writeRow, readRow, cleared => (g, writeRow, readRow, cleared)
  | fuel + 1, g, writeRow, readRow, cleared =>
    if readRow < g.height then
      let coloredCellCount := getColoredCellCountInRow g readRow
      if coloredCellCount = 0 then (g, writeRow, readRow, cleared)
      else if coloredCellCount = g.width then
        clearLoop fuel g writeRow (readRow + 1) (cleared + 1)
      else clearLoop fuel (copyRow g readRow writeRow) (writeRow + 1) (readRow + 1) cleared
    else (g, writeRow, readRow, cleared)

/-- `Grid.clearCompletedRows`: compact the stack, wipe the leftover rows, and
report the cleared count to the score tracker. -/
def clearCompletedRows (g : GridState) : GridState :=
  let scan := clearLoop g.height g 0 0 0
  let g₁ := scan.1
  let writeRow := scan.2.1
  let readRow := scan.2.2.1
  let cleared := scan.2.2.2
  let endRow := min readRow (g.height - 1)
  let g₂ := clearRows g₁ writeRow endRow
  { g₂ with stats := g₂.stats.addLinesCleared cleared }

/-- `Grid.spawnTetromino`: draw a shape, try to place it at the top center,
and activate it (resetting lock timer, hold flag, and shadow) on success.
On failure the drawn shape is discarded and no piece appears. -/
def spawnTetromino (g : GridState) : GridState :=
  match g.currentTetromino with
  | some _ => g
  | none =>
    let drawn := getRandomTetromino g
    let g₁ := drawn.2
    let centerCol : Int := (g₁.width / 2 : Nat)
    let centerRow : Int := (g₁.height : Int) - 1
    let piece : ActivePiece :=
      { tetromino := drawn.1, centerRow := centerRow, centerCol := centerCol
        rotatedPositions := none, rotationState := .s0 }
    if canPlaceTetromino g₁ piece then
      updateShadow
        { g₁ with currentTetromino := some piece, lockDelayStartTime := none, canHold := true }
    else g₁

/-- `Grid.commitTetromino`: fuse the active piece into the grid, clear the
shadow, resolve completed rows, and spawn the next piece. -/
def commitTetromino (g : GridState) : GridState :=
  match g.currentTetromino with
  | none => g
  | some p =>
    spawnTetromino
      (clearCompletedRows
        { clearShadow (placeTetromino g p) with
          currentTetromino := none, lockDelayStartTime := none })

/-- `Grid.applyGravity(now)`: descend the active piece, else run the lock
delay; with no active piece, settle the stack (`applyEndGravity`). -/
def applyGravity (g : GridState) (now : Int) : GridState :=
  match g.currentTetromino with
  | none => applyEndGravity g
  | some p =>
    if canPlaceTetromino g { p with centerRow := p.centerRow - 1 } then
      updateShadow
        { g with
          lockDelayStartTime := none
          currentTetromino := some { p with centerRow := p.centerRow - 1 } }
    else
      match g.lockDelayStartTime with
      | none => { g with lockDelayStartTime := some now }
      | some start => if (g.lockDelayMs : Int) ≤ now - start then commitTetromino g else g

/-- `Grid.update(now)`. -/
def update (g : GridState) (now : Int) : GridState :=
  applyGravity g now

/-- `Grid.moveTetromino(direction)`: shift the center column, validated. -/
def moveTetromino (g : GridState) (direction : Int) : GridState × Bool :=
  match g.currentTetromino with
  | none => (g, false)
  | some p =>
    let p₁ := { p with centerCol := p.centerCol + direction }
    if !canPlaceTetromino g p₁ then (g, false)
    else
      (updateShadow { g with lockDelayStartTime := none, currentTetromino := some p₁ }, true)

/-- `Grid.softDrop`: shift the center row down by one, validated; the shadow
is not recomputed. -/
def softDrop (g : GridState) : GridState × Bool :=
  match g.currentTetromino with
  | none => (g, false)
  | some p =>
    let p₁ := { p with centerRow := p.centerRow - 1 }
    if !canPlaceTetromino g p₁ then (g, false)
    else ({ g with lockDelayStartTime := none, currentTetromino := some p₁ }, true)

/-- `Grid.moveLeft`. -/
def moveLeft (g : GridState) : GridState × Bool := moveTetromino g (-1)

/-- `Grid.moveRight`. -/
def moveRight (g : GridState) : GridState × Bool := moveTetromino g 1

/-- `Grid.moveDown`. -/
def moveDown (g : GridState) : GridState × Bool := softDrop g

/-- The kick-candidate loop of `Grid.rotate`: try each offset in order and
commit the first one whose placement validates. -/
def tryKicks (g : GridState) (p : ActivePiece) (rotated : List (Int × Int))
    (nextState : RotState) : List (Int × Int) → GridState × Bool
  | [] => (g, false)
  | offset :: rest =>
    let p₁ :=
      { p with
        centerRow := p.centerRow + offset.1
        centerCol := p.centerCol + offset.2
        rotatedPositions := some rotated
        rotationState := nextState }
    if canPlaceTetromino g p₁ then
      (updateShadow { g with lockDelayStartTime := none, currentTetromino := some p₁ }, true)
    else tryKicks g p rotated nextState rest

/-- `Grid.rotate(clockwise)` with SRS wall kicks. -/
def rotate (g : GridState) (clockwise : Bool) : GridState × Bool :=
  match g.currentTetromino with
  | none => (g, false)
  | some p =>
    if p.tetromino = .O then (g, false)
    else
      match getKickTable p.tetromino with
      | none => (g, false)
      | some kickTable =>
        let currentState := p.rotationState
        let nextState := getRotationTransition currentState clockwise
        match kickTable currentState nextState with
        | none => (g, false)
        | some kickOffsets =>
          let currentPositions := p.rotatedPositions.getD (Tetromino.cellPositions p.tetromino)
          let rotatedPositions := rotateRelativePosition currentPositions clockwise
          tryKicks g p rotatedPositions nextState kickOffsets

/-- `Grid.rotateClockwise`. -/
def rotateClockwise (g : GridState) : GridState × Bool := rotate g true

/-- `Grid.rotateCounterClockwise`. -/
def rotateCounterClockwise (g : GridState) : GridState × Bool := rotate g false

/-- `Grid.holdTetromino`: stash the active shape, swapping with the held one
(re-spawned at the top center) or spawning a fresh piece. -/
def holdTetromino (g : GridState) : GridState × Bool :=
  match g.currentTetromino with
  | none => (g, false)
  | some p =>
    if !g.canHold then (g, false)
    else
      let g₁ := clearShadow g
      let tempTetromino := p.tetromino
      match g₁.heldTetromino with
      | some held =>
        let centerCol : Int := (g₁.width / 2 : Nat)
        let centerRow : Int := (g₁.height : Int) - 1
        let cand : ActivePiece :=
          { tetromino := held, centerRow := centerRow, centerCol := centerCol
            rotatedPositions := none, rotationState := .s0 }
        if !canPlaceTetromino g₁ cand then (g₁, false)
        else
          let g₂ :=
            updateShadow
              { g₁ with currentTetromino := some cand, lockDelayStartTime := none }
          ({ g₂ with heldTetromino := some tempTetromino, canHold := false }, true)
      | none =>
        let g₂ := spawnTetromino { g₁ with currentTetromino := none }
        ({ g₂ with heldTetromino := some tempTetromino, canHold := false }, true)

/-- `Grid.hardDrop`: jump to the landing row and force a commit. -/
def hardDrop (g : GridState) : GridState × Bool :=
  match g.currentTetromino with
  | none => (g, false)
  | some p =>
    let newCenterRow := dropAux g p g.height p.centerRow
    let g₁ :=
      if newCenterRow ≠ p.centerRow then
        { g with currentTetromino := some { p with centerRow := newCenterRow } }
      else g
    (commitTetromino (clearShadow g₁), true)

/-- `Grid.getHoldTetriminoCenter`: `[offsetCol, offsetRow]` centering offset
for the held shape in the preview grid. -/
def getHoldTetriminoCenter (g : GridState) : List ℚ :=
  match g.heldTetromino with
  | none => [0, 0]
  | some s =>
    let gridCenter : ℚ := ((g.previewGridSize : ℚ) - 1) / 2
    let offsetRow := gridCenter - (Tetromino.center s).1
    let offsetCol := gridCenter - (Tetromino.center s).2
    [offsetCol, offsetRow]

/-- Write one RGBA quadruple at cell `idx` of a flat buffer. -/
def writeCell (buf : List ℚ) (idx : Nat) (c : Color) : List ℚ :=
  ((((buf.set (idx * 4) c.r).set (idx * 4 + 1) c.g).set (idx * 4 + 2) c.b).set
    (idx * 4 + 3) c.a)

/-- `Grid.getHeldTetrominoColors`: flat RGBA buffer of the preview grid; the
held shape's cells are drawn at the fixed start offset (1, 1), clipped to the
preview bounds. -/
def getHeldTetrominoColors (g : GridState) : List ℚ :=
  let totalCells := g.previewGridSize * g.previewGridSize
  let colors : List ℚ := List.replicate (totalCells * 4) 0
  match g.heldTetromino with
  | none => colors
  | some s =>
    let startRow : Int := 1
    let startCol : Int := 1
    (Tetromino.cellPositions s).foldl
      (fun buf d =>
        let row := startRow + d.1
        let col := startCol + d.2
        if 0 ≤ row ∧ row < (g.previewGridSize : Int) ∧ 0 ≤ col ∧
            col < (g.previewGridSize : Int) then
          writeCell buf (row.toNat * g.previewGridSize + col.toNat) (Tetromino.color s)
        else buf)
      colors

end Grid

/-! ## Basic lemmas -/

open Grid

/-- Claim C2: for every prior stats state and every `n ≥ 1`,
`addLinesCleared n` increases the score by exactly
`basePoints n * (1 + floor(linesCleared / 10))` with the base-point table
1 ↦ 100, 2 ↦ 300, 3 ↦ 500, 4 ↦ 800, and `200 * n` for `n > 4`, and
increases the cumulative line count by `n`, the level multiplier being
computed from the pre-update total; for `n ≤ 0` the call changes nothing. -/
theorem stats_addLinesCleared_score_formula (s : Stats) (n : Int) :
    (1 ≤ n →
      (s.addLinesCleared n).score =
        s.score +
          (if n = 1 then 100 else if n = 2 then 300 else if n = 3 then 500
           else if n = 4 then 800 else 200 * n) * (1 + Int.fdiv s.linesCleared 10) ∧
      (s.addLinesCleared n).linesCleared = s.linesCleared + n) ∧
    (n ≤ 0 → s.addLinesCleared n = s) := by
  constructor
  · intro h
    have h0 : ¬n ≤ 0 := by omega
    refine ⟨?_, ?_⟩ <;>
      simp [Stats.addLinesCleared, h0, Stats.calculatePoints, Stats.calculateBasePoints,
        Stats.getLevel]
    ring_nf
  · intro h
    simp [Stats.addLinesCleared, h]

/-- Witness for C2: concrete clears score 100/300/500/800 at level 1, a
single clear after 10 cumulative lines scores 200, and `n = 0` is a no-op. -/
theorem stats_addLinesCleared_score_formula_witness :
    (Stats.addLinesCleared ⟨0, 0⟩ 1).score = 100 ∧
    (Stats.addLinesCleared ⟨0, 0⟩ 2).score = 300 ∧
    (Stats.addLinesCleared ⟨0, 0⟩ 3).score = 500 ∧
    (Stats.addLinesCleared ⟨0, 0⟩ 4).score = 800 ∧
    (Stats.addLinesCleared ⟨10, 800⟩ 1).score = 1000 ∧
    (Stats.addLinesCleared ⟨10, 800⟩ 1).linesCleared = 11 ∧
    Stats.addLinesCleared ⟨10, 800⟩ 0 = ⟨10, 800⟩ := by
  have h1 := (stats_addLinesCleared_score_formula ⟨0, 0⟩ 1).1 (by decide)
  have h2 := (stats_addLinesCleared_score_formula ⟨0, 0⟩ 2).1 (by decide)
  have h3 := (stats_addLinesCleared_score_formula ⟨0, 0⟩ 3).1 (by decide)
  have h4 := (stats_addLinesCleared_score_formula ⟨0, 0⟩ 4).1 (by decide)
  have h5 := (stats_addLinesCleared_score_formula ⟨10, 800⟩ 1).1 (by decide)
  have h0 := (stats_addLinesCleared_score_formula ⟨10, 800⟩ 0).2 (by decide)
  refine ⟨?_, ?_, ?_, ?_, ?_, ?_, h0⟩
  · rw [h1.1]; decide
  · rw [h2.1]; decide
  · rw [h3.1]; decide
  · rw [h4.1]; decide
  · rw [h5.1]; decide
  · rw [h5.2]; decide

/-- Claim C8: applying the clockwise offset rotation `(dr, dc) ↦ (dc, -dr)`
four times returns the original offset list, and applying the clockwise
rotation-state transition four times returns the original rotation state. -/
theorem rotation_fourth_power_identity (ps : List (Int × Int)) (st : RotState) :
    rotateRelativePosition (rotateRelativePosition (rotateRelativePosition
        (rotateRelativePosition ps true) true) true) true = ps ∧
    getRotationTransition (getRotationTransition (getRotationTransition
        (getRotationTransition st true) true) true) true = st := by
  constructor
  · simp [rotateRelativePosition, List.map_map, Function.comp_def]
  · cases st <;> rfl

/-- Drawing from the bag only changes the bag and the random stream. -/
theorem getRandomTetromino_snd_eq (g : GridState) :
    ∃ bag rnd, (getRandomTetromino g).2 = { g with tetrominoBag := bag, rand := rnd } := by
  by_cases h : g.tetrominoBag.isEmpty <;>
    simp [getRandomTetromino, refillBag, h]

/-- The bag left after a draw: pop the last element of the (refilled when
empty) bag. -/
theorem getRandomTetromino_snd_bag (g : GridState) :
    (getRandomTetromino g).2.tetrominoBag =
      (if g.tetrominoBag.isEmpty then (refillBag g).tetrominoBag
       else g.tetrominoBag).dropLast := by
  by_cases h : g.tetrominoBag.isEmpty <;> simp [getRandomTetromino, h]

/-- Claim C10: when `spawnTetromino` runs with no active piece and the spawn
placement of the drawn shape (center at row `height - 1`, column
`floor(width / 2)`) does not validate, the grid cells, active piece, held
piece, lock timer, shadow and stats are left unchanged, but the bag has
still been mutated: one shape was popped (after a refill-and-shuffle if the
bag was empty) and that shape is discarded. -/
theorem spawn_blocked_bag_still_drawn (g : GridState)
    (hNone : g.currentTetromino = none)
    (hBlocked :
      canPlaceTetromino (getRandomTetromino g).2
        { tetromino := (getRandomTetromino g).1
          centerRow := ((getRandomTetromino g).2.height : Int) - 1
          centerCol := ((getRandomTetromino g).2.width / 2 : Nat)
          rotatedPositions := none, rotationState := .s0 } = false) :
    spawnTetromino g = (getRandomTetromino g).2 ∧
    (spawnTetromino g).currentTetromino = none ∧
    (spawnTetromino g).cellColors = g.cellColors ∧
    (spawnTetromino g).isCellColored = g.isCellColored ∧
    (spawnTetromino g).heldTetromino = g.heldTetromino ∧
    (spawnTetromino g).canHold = g.canHold ∧
    (spawnTetromino g).shadowCells = g.shadowCells ∧
    (spawnTetromino g).lockDelayStartTime = g.lockDelayStartTime ∧
    (spawnTetromino g).stats = g.stats ∧
    (spawnTetromino g).tetrominoBag =
      (if g.tetrominoBag.isEmpty then (refillBag g).tetrominoBag
       else g.tetrominoBag).dropLast := by
  have hEq : spawnTetromino g = (getRandomTetromino g).2 := by
    unfold spawnTetromino
    rw [hNone]
    simp only [hBlocked, Bool.false_eq_true, if_false]
  obtain ⟨bag, rnd, hFrame⟩ := getRandomTetromino_snd_eq g
  have hBag := getRandomTetromino_snd_bag g
  rw [hEq, hFrame] at *
  exact ⟨rfl, hNone, rfl, rfl, rfl, rfl, rfl, rfl, rfl, hBag⟩

/-- Witness for C10: a 4×4 grid whose cell (2,2) is occupied blocks the O
piece drawn from the bag at the spawn center (3,2). -/
def spawnBlockedGrid : GridState :=
  { Grid.new 4 4 4 500 [] with
    isCellColored := (List.replicate 16 false).set 10 true
    cellColors := (List.replicate 16 grayColor).set 10 (Tetromino.color .O)
    tetrominoBag := [Shape.O] }

/-- Witness for C10, applying the theorem at `spawnBlockedGrid`. -/
theorem spawn_blocked_bag_still_drawn_witness :
    spawnTetromino spawnBlockedGrid = (getRandomTetromino spawnBlockedGrid).2 ∧
    (spawnTetromino spawnBlockedGrid).currentTetromino = none ∧
    (spawnTetromino spawnBlockedGrid).tetrominoBag = [] := by
  have h := spawn_blocked_bag_still_drawn spawnBlockedGrid (by decide) (by decide)
  refine ⟨h.1, h.2.1, ?_⟩
  rw [h.2.2.2.2.2.2.2.2.2]
  decide

/-- A failed kick search leaves the state unchanged. -/
theorem tryKicks_false_frame (g : GridState) (p : ActivePiece)
    (rotated : List (Int × Int)) (nextState : RotState) :
    ∀ l, (tryKicks g p rotated nextState l).2 = false →
      (tryKicks g p rotated nextState l).1 = g := by
  intro l
  induction l with
  | nil => simp [tryKicks]
  | cons o rest ih =>
    simp only [tryKicks]
    split
    · simp
    · exact ih

/-- Claim C3 (amended): every action method that returns `false` leaves the
state exactly unchanged, with one exception: a `holdTetromino` call that
fails because the held piece cannot be re-placed at the spawn position has
already cleared the shadow cell set (all other fields are unchanged). -/
theorem action_false_frame (g : GridState) :
    ((moveLeft g).2 = false → (moveLeft g).1 = g) ∧
    ((moveRight g).2 = false → (moveRight g).1 = g) ∧
    ((moveDown g).2 = false → (moveDown g).1 = g) ∧
    ((softDrop g).2 = false → (softDrop g).1 = g) ∧
    (∀ clockwise, (rotate g clockwise).2 = false → (rotate g clockwise).1 = g) ∧
    ((hardDrop g).2 = false → (hardDrop g).1 = g) ∧
    ((holdTetromino g).2 = false →
      (holdTetromino g).1 = g ∨ (holdTetromino g).1 = clearShadow g) := by
  have hMove : ∀ d, (moveTetromino g d).2 = false → (moveTetromino g d).1 = g := by
    intro d
    unfold moveTetromino
    cases hc : g.currentTetromino with
    | none => simp
    | some p =>
      by_cases hp : canPlaceTetromino g { p with centerCol := p.centerCol + d } <;> simp [hp]
  have hSoft : (softDrop g).2 = false → (softDrop g).1 = g := by
    unfold softDrop
    cases hc : g.currentTetromino with
    | none => simp
    | some p =>
      by_cases hp : canPlaceTetromino g { p with centerRow := p.centerRow - 1 } <;> simp [hp]
  refine ⟨hMove _, hMove _, hSoft, hSoft, ?_, ?_, ?_⟩
  · intro clockwise
    unfold rotate
    cases hc : g.currentTetromino with
    | none => simp
    | some p =>
      by_cases hO : p.tetromino = Shape.O
      · simp [hO]
      · simp only [hO, if_false]
        cases hk : getKickTable p.tetromino with
        | none => simp
        | some kickTable =>
          cases hko : kickTable p.rotationState
              (getRotationTransition p.rotationState clockwise) with
          | none => simp [hko]
          | some kickOffsets =>
            simp only [hko]
            exact tryKicks_false_frame g p _ _ kickOffsets
  · unfold hardDrop
    cases hc : g.currentTetromino with
    | none => simp
    | some p => simp
  · unfold holdTetromino
    cases hc : g.currentTetromino with
    | none => simp
    | some p =>
      by_cases hHold : g.canHold
      · simp only [hHold, Bool.not_true, Bool.false_eq_true, if_false]
        split
        · split <;> simp
        · simp
      · simp [hHold]

/-- Counterexample state for C3: an active piece with a non-empty shadow, a
held O piece that cannot be re-placed at the spawn center of a 2×2 grid. -/
def holdBlockedGrid : GridState :=
  { Grid.new 2 2 4 500 [] with
    currentTetromino := some ⟨Shape.I, 0, 0, none, .s0⟩
    heldTetromino := some Shape.O
    canHold := true
    shadowCells := [0] }

/-- Counterexample for C3 as stated: `holdTetromino` returns `false` on
`holdBlockedGrid` yet the observable state changes (the shadow cell set is
cleared). -/
theorem holdTetromino_false_mutates_shadow :
    (holdTetromino holdBlockedGrid).2 = false ∧
    (holdTetromino holdBlockedGrid).1 ≠ holdBlockedGrid ∧
    (holdTetromino holdBlockedGrid).1.shadowCells = [] ∧
    holdBlockedGrid.shadowCells = [0] := by
  refine ⟨by decide, ?_, by decide, by decide⟩
  intro h
  have h2 : (holdTetromino holdBlockedGrid).1.shadowCells = [] := by decide
  rw [h] at h2
  exact absurd h2 (by decide)

/-- Witness for C3 (amended): on a grid with no active piece every action
fails and, applying `action_false_frame`, returns the state unchanged (for
hold, up to the shadow-clearing disjunct). -/
theorem action_false_frame_witness :
    (moveLeft (Grid.new 4 4 4 500 [])).1 = Grid.new 4 4 4 500 [] ∧
    (rotate (Grid.new 4 4 4 500 []) true).1 = Grid.new 4 4 4 500 [] ∧
    ((holdTetromino holdBlockedGrid).1 = holdBlockedGrid ∨
      (holdTetromino holdBlockedGrid).1 = clearShadow holdBlockedGrid) := by
  have h := action_false_frame (Grid.new 4 4 4 500 [])
  have hHold := (action_false_frame holdBlockedGrid).2.2.2.2.2.2 (by decide)
  exact ⟨h.1 (by decide), h.2.2.2.2.1 true (by decide), hHold⟩

/-! ## The 7-bag randomizer (Claim C7) -/

/-- `n` successive draws from the bag (`getRandomTetromino` iterated). -/
def drawN : Nat → GridState → List Shape × GridState
  | 0, g => ([], g)
  | n + 1, g =>
    let d := getRandomTetromino g
    let rest := drawN n d.2
    (d.1 :: rest.1, rest.2)

/-- Pulling element `j` of the tail to the front (leaving `a` in its place)
permutes the list. -/
theorem getD_cons_set_perm (a d : Shape) :
    ∀ (t : List Shape) (j : Nat), j < t.length →
      (t.getD j d :: t.set j a).Perm (a :: t) := by
  intro t
  induction t with
  | nil => intro j hj; simp at hj
  | cons b t ih =>
    intro j hj
    cases j with
    | zero => simpa using List.Perm.swap a b t
    | succ j =>
      have hj' : j < t.length := by simpa using hj
      exact ((List.Perm.swap b (t.getD j d) (t.set j a)).trans
        ((ih j hj').cons b)).trans (List.Perm.swap a b t)

/-- A destructuring index swap is a permutation. -/
theorem swapIdx_perm :
    ∀ (l : List Shape) (i j : Nat), i < l.length → j < l.length →
      (swapIdx l i j).Perm l := by
  intro l
  induction l with
  | nil => intro i j hi _; simp at hi
  | cons a t ih =>
    intro i j hi hj
    match i, j with
    | 0, 0 => simp [swapIdx]
    | 0, j + 1 =>
      have hj' : j < t.length := by simpa using hj
      simpa [swapIdx] using getD_cons_set_perm a Shape.I t j hj'
    | i + 1, 0 =>
      have hi' : i < t.length := by simpa using hi
      simpa [swapIdx] using getD_cons_set_perm a Shape.I t i hi'
    | i + 1, j + 1 =>
      have hi' : i < t.length := by simpa using hi
      have hj' : j < t.length := by simpa using hj
      simpa [swapIdx] using (ih i j hi' hj').cons a

/-- The Fisher-Yates loop preserves length. -/
theorem fyLoop_length (i : Nat) :
    ∀ (l : List Shape) (rand : List Nat), (fyLoop i l rand).1.length = l.length := by
  induction i with
  | zero => intro l rand; rfl
  | succ i ih =>
    intro l rand
    simp [fyLoop, ih, swapIdx]

/-- The Fisher-Yates loop permutes its input. -/
theorem fyLoop_perm (i : Nat) :
    ∀ (l : List Shape) (rand : List Nat), i < l.length → (fyLoop i l rand).1.Perm l := by
  induction i with
  | zero => intro l rand _; simp [fyLoop]
  | succ i ih =>
    intro l rand hi
    have hswap : (swapIdx l (i + 1) (rand.headD 0 % (i + 2))).Perm l :=
      swapIdx_perm l (i + 1) (rand.headD 0 % (i + 2)) hi
        (lt_of_lt_of_le (Nat.mod_lt _ (by omega)) (by omega))
    have hlen : (swapIdx l (i + 1) (rand.headD 0 % (i + 2))).length = l.length := by
      simp [swapIdx]
    exact (ih _ rand.tail (by omega)).trans hswap

/-- `refillBag` fills the bag with a permutation of all 7 shapes. -/
theorem refillBag_perm (g : GridState) : (refillBag g).tetrominoBag.Perm allShapes :=
  fyLoop_perm 6 allShapes g.rand (by decide)

/-- `refillBag` fills the bag with exactly 7 shapes. -/
theorem refillBag_length (g : GridState) : (refillBag g).tetrominoBag.length = 7 :=
  fyLoop_length 6 allShapes g.rand

/-- Drawing `length bag` times from a state pops the bag from the back,
yielding the reversed bag. -/
theorem drawN_length_bag (b : List Shape) :
    ∀ g : GridState, g.tetrominoBag = b → (drawN b.length g).1 = b.reverse := by
  induction b using List.reverseRecOn with
  | nil => intro g _; simp [drawN]
  | append_singleton init x ih =>
    intro g hg
    have hne : g.tetrominoBag.isEmpty = false := by
      rw [hg]; simp
    have hdraw : getRandomTetromino g = (x, { g with tetrominoBag := init }) := by
      simp [getRandomTetromino, hne, hg, List.getLast?_concat]
    have hlen : (init ++ [x]).length = init.length + 1 := by simp
    rw [hlen]
    simp only [drawN, hdraw]
    rw [ih { g with tetrominoBag := init } rfl, List.reverse_concat]

/-- Claim C7: from any state whose bag is empty (a fresh grid, or any bag
refill boundary) and for every outcome of the shuffle's random choices, the
next 7 draws of `getRandomTetromino` are a permutation of the 7 shape tags,
with no repeats — each shape appears exactly once. -/
theorem freshBag_seven_draws_perm (g : GridState) (hBag : g.tetrominoBag = []) :
    (drawN 7 g).1.Perm allShapes ∧ (drawN 7 g).1.Nodup ∧
      ∀ s : Shape, (drawN 7 g).1.count s = 1 := by
  have hre : (refillBag g).tetrominoBag.Perm allShapes := refillBag_perm g
  have hlen : (refillBag g).tetrominoBag.length = 7 := refillBag_length g
  have hne : (refillBag g).tetrominoBag.isEmpty = false := by
    cases h : (refillBag g).tetrominoBag with
    | nil => rw [h] at hlen; simp at hlen
    | cons a t => simp
  have hfirst : getRandomTetromino g = getRandomTetromino (refillBag g) := by
    simp [getRandomTetromino, hBag, hne]
  have h7 : drawN 7 g = drawN 7 (refillBag g) := by
    show drawN (6 + 1) g = drawN (6 + 1) (refillBag g)
    simp only [drawN, hfirst]
  have hdb := drawN_length_bag (refillBag g).tetrominoBag (refillBag g) rfl
  rw [hlen] at hdb
  have hperm : (drawN 7 g).1.Perm allShapes := by
    rw [h7, hdb]
    exact (List.reverse_perm _).trans hre
  refine ⟨hperm, hperm.nodup_iff.mpr (by decide), fun s => ?_⟩
  rw [hperm.count_eq]
  cases s <;> rfl

/-- Witness for C7: the theorem applied to a fresh default grid with a
concrete random stream. -/
theorem freshBag_seven_draws_perm_witness :
    (drawN 7 (Grid.new 10 20 4 500 [3, 1, 4, 1, 5, 9])).1.Perm allShapes ∧
    (drawN 7 (Grid.new 10 20 4 500 [3, 1, 4, 1, 5, 9])).1.Nodup ∧
    ∀ s : Shape, (drawN 7 (Grid.new 10 20 4 500 [3, 1, 4, 1, 5, 9])).1.count s = 1 :=
  freshBag_seven_draws_perm _ rfl

/-! ## Held-piece preview buffer (Claim C9) -/

/-- The RGBA quadruple stored at cell `idx` of a flat buffer. -/
def quadAt (buf : List ℚ) (idx : Nat) : ℚ × ℚ × ℚ × ℚ :=
  (buf.getD (idx * 4) 0, buf.getD (idx * 4 + 1) 0, buf.getD (idx * 4 + 2) 0,
    buf.getD (idx * 4 + 3) 0)

/-- A `Color` as a quadruple. -/
def colorQuad (c : Color) : ℚ × ℚ × ℚ × ℚ := (c.r, c.g, c.b, c.a)

/-- Modelled from the spec wording of C9 (for comparison only): the preview
buffer with the held shape centered via its bounding-box offset, i.e. each
offset cell `d` translated by `gridCenter - boundingBoxMidpoint` where
`gridCenter = (n - 1) / 2` and the midpoint is `(min + max) / 2` of the
bounding box. The cell equation `r = d.1 + gridCenter - midRow` is stated
with denominators cleared (multiplied by 2) so that it reads over integers:
`2r = 2·d.1 + (n - 1) - (minRow + maxRow)`, and likewise for columns. -/
def heldColorsCenteredSpec (n : Nat) (s : Shape) : List ℚ :=
  (List.range (n * n)).flatMap
    (fun i =>
      if (Tetromino.cellPositions s).any
          (fun d =>
            decide (2 * ((i / n : Nat) : Int) =
              2 * d.1 + ((n : Int) - 1) - (Tetromino.minRow s + Tetromino.maxRow s)) &&
            decide (2 * ((i % n : Nat) : Int) =
              2 * d.2 + ((n : Int) - 1) - (Tetromino.minCol s + Tetromino.maxCol s))) then
        [(Tetromino.color s).r, (Tetromino.color s).g, (Tetromino.color s).b,
          (Tetromino.color s).a]
      else [0, 0, 0, 0])

/-- Counterexample for C9 as stated: with a held O piece and the default 4×4
preview, the buffer `getHeldTetrominoColors` returns is not the
bounding-box-centered placement the spec describes — the centered placement
colors cell (2,1) (flat cell 9) while the code leaves it background. -/
theorem heldColors_not_bbox_centered :
    getHeldTetrominoColors { Grid.new 10 20 4 500 [] with heldTetromino := some Shape.O } ≠
      heldColorsCenteredSpec 4 Shape.O ∧
    (getHeldTetrominoColors
        { Grid.new 10 20 4 500 [] with heldTetromino := some Shape.O }).getD
      ((2 * 4 + 1) * 4 + 3) 0 = 0 ∧
    (heldColorsCenteredSpec 4 Shape.O).getD ((2 * 4 + 1) * 4 + 3) 0 = 1 := by
  refine ⟨?_, by decide, by decide⟩
  intro h
  have h1 : (getHeldTetrominoColors
      { Grid.new 10 20 4 500 [] with heldTetromino := some Shape.O }).getD
      ((2 * 4 + 1) * 4 + 3) 0 = 0 := by decide
  rw [h] at h1
  exact absurd h1 (by decide)

/-- Value of `writeCell` at the cell it writes. -/
theorem writeCell_quadAt_eq (buf : List ℚ) (idx : Nat) (c : Color)
    (h : idx * 4 + 3 < buf.length) :
    quadAt (writeCell buf idx c) idx = colorQuad c := by
  have h0 : idx * 4 < buf.length := by omega
  have h1 : idx * 4 + 1 < buf.length := by omega
  have h2 : idx * 4 + 2 < buf.length := by omega
  simp [quadAt, writeCell, colorQuad, List.getElem?_set_self, List.getElem?_set_ne,
    List.getElem?_set, h0, h1, h2, h]

/-- `writeCell` leaves every other cell unchanged. -/
theorem writeCell_quadAt_ne (buf : List ℚ) (idx cell : Nat) (c : Color)
    (hne : idx ≠ cell) :
    quadAt (writeCell buf idx c) cell = quadAt buf cell := by
  have n0 : idx * 4 ≠ cell * 4 := by omega
  have n0a : idx * 4 ≠ cell * 4 + 1 := by omega
  have n0b : idx * 4 ≠ cell * 4 + 2 := by omega
  have n0c : idx * 4 ≠ cell * 4 + 3 := by omega
  have n1 : idx * 4 + 1 ≠ cell * 4 := by omega
  have n1a : idx * 4 + 1 ≠ cell * 4 + 1 := by omega
  have n1b : idx * 4 + 1 ≠ cell * 4 + 2 := by omega
  have n1c : idx * 4 + 1 ≠ cell * 4 + 3 := by omega
  have n2 : idx * 4 + 2 ≠ cell * 4 := by omega
  have n2a : idx * 4 + 2 ≠ cell * 4 + 1 := by omega
  have n2b : idx * 4 + 2 ≠ cell * 4 + 2 := by omega
  have n2c : idx * 4 + 2 ≠ cell * 4 + 3 := by omega
  have n3 : idx * 4 + 3 ≠ cell * 4 := by omega
  have n3a : idx * 4 + 3 ≠ cell * 4 + 1 := by omega
  have n3b : idx * 4 + 3 ≠ cell * 4 + 2 := by omega
  have n3c : idx * 4 + 3 ≠ cell * 4 + 3 := by omega
  simp [quadAt, writeCell, List.getElem?_set_ne, n0, n0a, n0b, n0c, n1, n1a, n1b, n1c,
    n2, n2a, n2b, n2c, n3, n3a, n3b, n3c]

/-- `writeCell` preserves the buffer length. -/
theorem writeCell_length (buf : List ℚ) (idx : Nat) (c : Color) :
    (writeCell buf idx c).length = buf.length := by
  simp [writeCell]

/-- Unique base-`N` decomposition of cell indices. -/
theorem rowcol_decomp_inj {N a b r c : Nat} (hb : b < N) (hc : c < N)
    (h : a * N + b = r * N + c) : a = r ∧ b = c := by
  have hN : 0 < N := Nat.lt_of_le_of_lt (Nat.zero_le _) hb
  have h1 : (a * N + b) / N = a := by
    rw [Nat.mul_comm, Nat.mul_add_div hN, Nat.div_eq_of_lt hb, Nat.add_zero]
  have h2 : (r * N + c) / N = r := by
    rw [Nat.mul_comm, Nat.mul_add_div hN, Nat.div_eq_of_lt hc, Nat.add_zero]
  have h3 : (a * N + b) % N = b := by
    rw [Nat.mul_comm, Nat.mul_add_mod, Nat.mod_eq_of_lt hb]
  have h4 : (r * N + c) % N = c := by
    rw [Nat.mul_comm, Nat.mul_add_mod, Nat.mod_eq_of_lt hc]
  constructor
  · rw [← h1, ← h2, h]
  · rw [← h3, ← h4, h]

/-- The drawing fold of `getHeldTetrominoColors`, characterized per cell:
a preview cell carries the piece color iff some offset writes it. -/
theorem heldFold_quadAt (N : Nat) (colr : Color) (ps : List (Int × Int)) :
    ∀ b : List ℚ, b.length = N * N * 4 → ∀ cell : Nat, cell < N * N →
      quadAt
        (ps.foldl
          (fun buf d =>
            if 0 ≤ 1 + d.1 ∧ 1 + d.1 < (N : Int) ∧ 0 ≤ 1 + d.2 ∧ 1 + d.2 < (N : Int) then
              writeCell buf ((1 + d.1).toNat * N + (1 + d.2).toNat) colr
            else buf)
          b) cell =
      (if ∃ d ∈ ps,
          (0 ≤ 1 + d.1 ∧ 1 + d.1 < (N : Int) ∧ 0 ≤ 1 + d.2 ∧ 1 + d.2 < (N : Int)) ∧
          (1 + d.1).toNat * N + (1 + d.2).toNat = cell
       then colorQuad colr else quadAt b cell) := by
  induction ps with
  | nil => intro b _ cell _; simp
  | cons d ps ih =>
    intro b hb cell hcell
    by_cases hcond :
        0 ≤ 1 + d.1 ∧ 1 + d.1 < (N : Int) ∧ 0 ≤ 1 + d.2 ∧ 1 + d.2 < (N : Int)
    · have hidx : (1 + d.1).toNat * N + (1 + d.2).toNat < N * N := by
        obtain ⟨h1, h2, h3, h4⟩ := hcond
        have hr : (1 + d.1).toNat < N := by omega
        have hc : (1 + d.2).toNat < N := by omega
        calc (1 + d.1).toNat * N + (1 + d.2).toNat
            < (1 + d.1).toNat * N + N := by omega
          _ = ((1 + d.1).toNat + 1) * N := by ring
          _ ≤ N * N := Nat.mul_le_mul_right N hr
      have hblen : (writeCell b ((1 + d.1).toNat * N + (1 + d.2).toNat) colr).length =
          N * N * 4 := by rw [writeCell_length, hb]
      simp only [List.foldl_cons, if_pos hcond]
      rw [ih _ hblen cell hcell]
      by_cases hhit : (1 + d.1).toNat * N + (1 + d.2).toNat = cell
      · by_cases hrest : ∃ e ∈ ps,
            (0 ≤ 1 + e.1 ∧ 1 + e.1 < (N : Int) ∧ 0 ≤ 1 + e.2 ∧ 1 + e.2 < (N : Int)) ∧
            (1 + e.1).toNat * N + (1 + e.2).toNat = cell
        · rw [if_pos hrest, if_pos ⟨d, List.mem_cons_self d ps, hcond, hhit⟩]
        · rw [if_neg hrest, if_pos ⟨d, List.mem_cons_self d ps, hcond, hhit⟩, hhit]
          exact writeCell_quadAt_eq b cell colr (by omega)
      · have hsame :
            (∃ e ∈ d :: ps,
              (0 ≤ 1 + e.1 ∧ 1 + e.1 < (N : Int) ∧ 0 ≤ 1 + e.2 ∧ 1 + e.2 < (N : Int)) ∧
              (1 + e.1).toNat * N + (1 + e.2).toNat = cell) ↔
            (∃ e ∈ ps,
              (0 ≤ 1 + e.1 ∧ 1 + e.1 < (N : Int) ∧ 0 ≤ 1 + e.2 ∧ 1 + e.2 < (N : Int)) ∧
              (1 + e.1).toNat * N + (1 + e.2).toNat = cell) := by
          constructor
          · rintro ⟨e, he, hce, hie⟩
            rcases List.mem_cons.1 he with rfl | he'
            · exact absurd hie hhit
            · exact ⟨e, he', hce, hie⟩
          · rintro ⟨e, he, hce, hie⟩
            exact ⟨e, List.mem_cons_of_mem d he, hce, hie⟩
        rw [if_congr hsame rfl rfl,
          writeCell_quadAt_ne b _ cell colr hhit]
    · simp only [List.foldl_cons, if_neg hcond]
      rw [ih b hb cell hcell]
      have hsame :
          (∃ e ∈ d :: ps,
            (0 ≤ 1 + e.1 ∧ 1 + e.1 < (N : Int) ∧ 0 ≤ 1 + e.2 ∧ 1 + e.2 < (N : Int)) ∧
            (1 + e.1).toNat * N + (1 + e.2).toNat = cell) ↔
          (∃ e ∈ ps,
            (0 ≤ 1 + e.1 ∧ 1 + e.1 < (N : Int) ∧ 0 ≤ 1 + e.2 ∧ 1 + e.2 < (N : Int)) ∧
            (1 + e.1).toNat * N + (1 + e.2).toNat = cell) := by
        constructor
        · rintro ⟨e, he, hce, hie⟩
          rcases List.mem_cons.1 he with rfl | he'
          · exact absurd hce hcond
          · exact ⟨e, he', hce, hie⟩
        · rintro ⟨e, he, hce, hie⟩
          exact ⟨e, List.mem_cons_of_mem d he, hce, hie⟩
      rw [if_congr hsame rfl rfl]

/-- `getD` on a zero-filled buffer is zero. -/
theorem replicate_getD_zero (n i : Nat) : (List.replicate n (0 : ℚ)).getD i 0 = 0 := by
  simp only [List.getD_eq_getElem?_getD, List.getElem?_replicate]
  split <;> rfl

/-- The fold of `getHeldTetrominoColors` preserves buffer length. -/
theorem heldFold_length (N : Nat) (colr : Color) (ps : List (Int × Int)) :
    ∀ b : List ℚ,
      (ps.foldl
        (fun buf d =>
          if 0 ≤ 1 + d.1 ∧ 1 + d.1 < (N : Int) ∧ 0 ≤ 1 + d.2 ∧ 1 + d.2 < (N : Int) then
            writeCell buf ((1 + d.1).toNat * N + (1 + d.2).toNat) colr
          else buf)
        b).length = b.length := by
  induction ps with
  | nil => intro b; rfl
  | cons d ps ih =>
    intro b
    simp only [List.foldl_cons]
    rw [ih]
    split
    · rw [writeCell_length]
    · rfl

/-- Claim C9 (amended): `getHeldTetrominoColors` returns a flat buffer of
length `previewGridSize² * 4`; with no held shape every entry is zero
(transparent background); with a held shape, preview cell `(r, c)` carries
the shape's RGBA color exactly when `(r, c)` is an offset cell translated by
the fixed start offset `(1, 1)` (cells falling outside the preview are
clipped), and otherwise stays background — the bounding-box centering offset
is not applied to the buffer; it is exposed separately by
`getHoldTetriminoCenter` as `[gridCenter - midCol, gridCenter - midRow]`. -/
theorem heldColors_characterization (g : GridState) :
    (getHeldTetrominoColors g).length = g.previewGridSize * g.previewGridSize * 4 ∧
    (g.heldTetromino = none → ∀ i, (getHeldTetrominoColors g).getD i 0 = 0) ∧
    (∀ s, g.heldTetromino = some s →
      (∀ r c : Nat, r < g.previewGridSize → c < g.previewGridSize →
        quadAt (getHeldTetrominoColors g) (r * g.previewGridSize + c) =
          (if ∃ d ∈ Tetromino.cellPositions s,
              (r : Int) = 1 + d.1 ∧ (c : Int) = 1 + d.2
           then colorQuad (Tetromino.color s) else (0, 0, 0, 0))) ∧
      getHoldTetriminoCenter g =
        [((g.previewGridSize : ℚ) - 1) / 2 - (Tetromino.center s).2,
         ((g.previewGridSize : ℚ) - 1) / 2 - (Tetromino.center s).1]) := by
  set N := g.previewGridSize with hN
  refine ⟨?_, ?_, ?_⟩
  · unfold getHeldTetrominoColors
    cases hh : g.heldTetromino with
    | none => simp [← hN]
    | some s =>
      simp only [← hN]
      rw [heldFold_length N (Tetromino.color s) (Tetromino.cellPositions s)]
      simp
  · intro hh i
    unfold getHeldTetrominoColors
    rw [hh]
    simp only [← hN]
    exact replicate_getD_zero (N * N * 4) i
  · intro s hh
    constructor
    · intro r c hr hc
      have hcell : r * N + c < N * N := by
        calc r * N + c < r * N + N := by omega
          _ = (r + 1) * N := by ring
          _ ≤ N * N := Nat.mul_le_mul_right N hr
      have hbase :
          quadAt (getHeldTetrominoColors g) (r * N + c) =
            (if ∃ d ∈ Tetromino.cellPositions s,
                (0 ≤ 1 + d.1 ∧ 1 + d.1 < (N : Int) ∧ 0 ≤ 1 + d.2 ∧ 1 + d.2 < (N : Int)) ∧
                (1 + d.1).toNat * N + (1 + d.2).toNat = r * N + c
             then colorQuad (Tetromino.color s)
             else quadAt (List.replicate (N * N * 4) (0 : ℚ)) (r * N + c)) := by
        unfold getHeldTetrominoColors
        rw [hh]
        simp only [← hN]
        exact heldFold_quadAt N (Tetromino.color s) (Tetromino.cellPositions s)
          (List.replicate (N * N * 4) 0) (by simp) (r * N + c) hcell
      rw [hbase]
      have hiff :
          (∃ d ∈ Tetromino.cellPositions s,
            (0 ≤ 1 + d.1 ∧ 1 + d.1 < (N : Int) ∧ 0 ≤ 1 + d.2 ∧ 1 + d.2 < (N : Int)) ∧
            (1 + d.1).toNat * N + (1 + d.2).toNat = r * N + c) ↔
          (∃ d ∈ Tetromino.cellPositions s,
            (r : Int) = 1 + d.1 ∧ (c : Int) = 1 + d.2) := by
        constructor
        · rintro ⟨d, hd, ⟨h1, h2, h3, h4⟩, hidx⟩
          have hcN : (1 + d.2).toNat < N := by omega
          obtain ⟨her, hec⟩ := rowcol_decomp_inj hcN hc hidx
          exact ⟨d, hd, by omega, by omega⟩
        · rintro ⟨d, hd, her, hec⟩
          refine ⟨d, hd, ⟨by omega, by omega, by omega, by omega⟩, ?_⟩
          have h1 : (1 + d.1).toNat = r := by omega
          have h2 : (1 + d.2).toNat = c := by omega
          rw [h1, h2]
      rw [if_congr hiff rfl rfl]
      split
      · rfl
      · unfold quadAt
        rw [replicate_getD_zero, replicate_getD_zero, replicate_getD_zero,
          replicate_getD_zero]
    · unfold getHoldTetriminoCenter
      rw [hh]

/-- The witness grid for C9: a default grid holding the O piece. -/
def heldOGrid : GridState :=
  { Grid.new 10 20 4 500 [] with heldTetromino := some Shape.O }

/-- Witness for C9 (amended): the theorem applied to `heldOGrid`; cell (0,1)
carries the O color, cell (2,1) is background, and the buffer length is 64. -/
theorem heldColors_characterization_witness :
    (getHeldTetrominoColors heldOGrid).length = 64 ∧
    quadAt (getHeldTetrominoColors heldOGrid) 1 = colorQuad (Tetromino.color Shape.O) ∧
    quadAt (getHeldTetrominoColors heldOGrid) 9 = (0, 0, 0, 0) := by
  have h := heldColors_characterization heldOGrid
  have hp : heldOGrid.previewGridSize = 4 := rfl
  have h1 := (h.2.2 Shape.O rfl).1 0 1 (by decide) (by decide)
  have h2 := (h.2.2 Shape.O rfl).1 2 1 (by decide) (by decide)
  rw [hp] at h1 h2
  norm_num at h1 h2
  have hl := h.1
  rw [hp] at hl
  refine ⟨by omega, ?_, ?_⟩
  · rw [h1, if_pos (by decide)]
  · rw [h2, if_neg (by decide)]; rfl

/-! ## Frame reasoning for cell-only mutations -/

/-- `h` agrees with `g` on every field except the two cell buffers (whose
occupancy buffer keeps its length). -/
def SameExceptCells (g h : GridState) : Prop :=
  h.width = g.width ∧ h.height = g.height ∧ h.previewGridSize = g.previewGridSize ∧
  h.lockDelayMs = g.lockDelayMs ∧ h.currentTetromino = g.currentTetromino ∧
  h.heldTetromino = g.heldTetromino ∧ h.canHold = g.canHold ∧
  h.shadowCells = g.shadowCells ∧ h.lockDelayStartTime = g.lockDelayStartTime ∧
  h.stats = g.stats ∧ h.tetrominoBag = g.tetrominoBag ∧ h.rand = g.rand ∧
  h.isCellColored.length = g.isCellColored.length

theorem SameExceptCells.refl (g : GridState) : SameExceptCells g g := by
  simp [SameExceptCells]

theorem SameExceptCells.trans {g h k : GridState} (h1 : SameExceptCells g h)
    (h2 : SameExceptCells h k) : SameExceptCells g k := by
  obtain ⟨a1, a2, a3, a4, a5, a6, a7, a8, a9, a10, a11, a12, a13⟩ := h1
  obtain ⟨b1, b2, b3, b4, b5, b6, b7, b8, b9, b10, b11, b12, b13⟩ := h2
  exact ⟨b1.trans a1, b2.trans a2, b3.trans a3, b4.trans a4, b5.trans a5, b6.trans a6,
    b7.trans a7, b8.trans a8, b9.trans a9, b10.trans a10, b11.trans a11, b12.trans a12,
    b13.trans a13⟩

theorem setCellGray_sec (g : GridState) (i : Int) :
    SameExceptCells g (setCellGray g i) := by
  unfold setCellGray
  split <;> simp [SameExceptCells]

theorem copyCellColor_sec (g : GridState) (i j : Int) :
    SameExceptCells g (copyCellColor g i j) := by
  unfold copyCellColor
  split <;> simp [SameExceptCells]

theorem placeCell_sec (g : GridState) (c : Color) (rc : Int × Int) :
    SameExceptCells g (placeCell g c rc) := by
  by_cases h : 0 ≤ getCellIndex g rc.1 rc.2 <;> simp [placeCell, h, SameExceptCells]

theorem endGravityCell_sec (g : GridState) (row col : Int) :
    SameExceptCells g (endGravityCell g row col) := by
  by_cases h1 : isColored g (getCellIndex g row col)
  · by_cases h2 : isColored g (getCellIndex g (row - 1) col)
    · simp [endGravityCell, h1, h2, SameExceptCells]
    · simp only [endGravityCell, h1, h2, Bool.not_true, Bool.false_eq_true, if_false,
        if_neg]
      exact (copyCellColor_sec g _ _).trans (setCellGray_sec _ _)
  · simp [endGravityCell, h1, SameExceptCells]

theorem foldl_sec {α : Type} (f : GridState → α → GridState)
    (hf : ∀ g a, SameExceptCells g (f g a)) :
    ∀ (l : List α) (g : GridState), SameExceptCells g (l.foldl f g) := by
  intro l
  induction l with
  | nil => intro g; exact SameExceptCells.refl g
  | cons a l ih => intro g; exact (hf g a).trans (ih (f g a))

theorem clearRows_sec (g : GridState) (s e : Nat) :
    SameExceptCells g (clearRows g s e) := by
  unfold clearRows
  exact foldl_sec _ (fun g row => foldl_sec _ (fun g col => setCellGray_sec g _) _ g) _ g

theorem copyRow_sec (g : GridState) (s t : Nat) :
    SameExceptCells g (copyRow g s t) := by
  unfold copyRow
  split
  · exact SameExceptCells.refl g
  · exact foldl_sec _ (fun g col => copyCellColor_sec g _ _) _ g

theorem placeTetromino_sec (g : GridState) (p : ActivePiece) :
    SameExceptCells g (placeTetromino g p) := by
  unfold placeTetromino
  exact foldl_sec _ (fun g rc => placeCell_sec g _ rc) _ g

theorem applyEndGravity_sec (g : GridState) :
    SameExceptCells g (applyEndGravity g) := by
  unfold applyEndGravity
  exact foldl_sec _ (fun g row => foldl_sec _ (fun g col => endGravityCell_sec g _ _) _ g) _ g

theorem clearLoop_sec (fuel : Nat) :
    ∀ (g : GridState) (w r c : Nat), SameExceptCells g (clearLoop fuel g w r c).1 := by
  induction fuel with
  | zero => intro g w r c; exact SameExceptCells.refl g
  | succ fuel ih =>
    intro g w r c
    unfold clearLoop
    by_cases hr : r < g.height
    · rw [if_pos hr]
      by_cases h0 : getColoredCellCountInRow g r = 0
      · rw [if_pos h0]
        exact SameExceptCells.refl g
      · by_cases hw : getColoredCellCountInRow g r = g.width
        · rw [if_neg h0, if_pos hw]
          exact ih g w (r + 1) (c + 1)
        · rw [if_neg h0, if_neg hw]
          exact (copyRow_sec g r w).trans (ih _ (w + 1) (r + 1) c)
    · rw [if_neg hr]
      exact SameExceptCells.refl g

theorem SameExceptCells.width_eq {g h : GridState} (hs : SameExceptCells g h) :
    h.width = g.width := hs.1

theorem SameExceptCells.icc_length {g h : GridState} (hs : SameExceptCells g h) :
    h.isCellColored.length = g.isCellColored.length :=
  hs.2.2.2.2.2.2.2.2.2.2.2.2

theorem SameExceptCells.stats_eq {g h : GridState} (hs : SameExceptCells g h) :
    h.stats = g.stats := hs.2.2.2.2.2.2.2.2.2.1

/-! ## Row clearing (Claim C6) -/

theorem getD_of_length_le {α : Type} (l : List α) (i : Nat) (d : α)
    (h : l.length ≤ i) : l.getD i d = d := by
  simp [List.getD_eq_getElem?_getD, List.getElem?_eq_none h]

theorem getD_set_self {α : Type} (l : List α) (i : Nat) (a d : α) (h : i < l.length) :
    (l.set i a).getD i d = a := by
  simp [List.getD_eq_getElem?_getD, List.getElem?_set_self h]

theorem getD_set_ne {α : Type} (l : List α) (i j : Nat) (a d : α) (h : i ≠ j) :
    (l.set i a).getD j d = l.getD j d := by
  simp [List.getD_eq_getElem?_getD, List.getElem?_set_ne h]

/-- The occupancy buffer of `setCellGray`. -/
theorem setCellGray_icc (g : GridState) (j : Int) :
    (setCellGray g j).isCellColored =
      if 0 ≤ j then g.isCellColored.set j.toNat false else g.isCellColored := by
  unfold setCellGray
  split <;> simp_all

/-- A fold of `setCellGray` over a list of cell indices, characterized per
cell: a cell reads `false` exactly when it was grayed (or was `false`, or
lies outside the buffer). -/
theorem setFold_getD (l : List Int) :
    ∀ (g : GridState) (i : Nat),
      (l.foldl (fun g j => setCellGray g j) g).isCellColored.getD i false =
      (if (i : Int) ∈ l ∧ i < g.isCellColored.length then false
       else g.isCellColored.getD i false) := by
  induction l with
  | nil => intro g i; simp
  | cons j l ih =>
    intro g i
    have hlen : (setCellGray g j).isCellColored.length = g.isCellColored.length :=
      (setCellGray_sec g j).icc_length
    rw [List.foldl_cons, ih, hlen]
    by_cases hiLen : i < g.isCellColored.length
    · by_cases hji : j = (i : Int)
      · have h0j : (0 : Int) ≤ j := by rw [hji]; exact Int.natCast_nonneg i
        have hset : (setCellGray g j).isCellColored.getD i false = false := by
          rw [setCellGray_icc, if_pos h0j]
          have hjt : j.toNat = i := by omega
          rw [hjt]
          exact getD_set_self _ _ _ _ hiLen
        have hRHS : (i : Int) ∈ j :: l ∧ i < g.isCellColored.length :=
          ⟨by rw [← hji]; exact List.mem_cons_self j l, hiLen⟩
        rw [if_pos hRHS]
        split
        · rfl
        · exact hset
      · have hset : (setCellGray g j).isCellColored.getD i false =
            g.isCellColored.getD i false := by
          rw [setCellGray_icc]
          split
          · have hjt : j.toNat ≠ i := by omega
            exact getD_set_ne _ _ _ _ _ hjt
          · rfl
        have hmem : ((i : Int) ∈ l ∧ i < g.isCellColored.length) ↔
            ((i : Int) ∈ j :: l ∧ i < g.isCellColored.length) := by
          constructor
          · rintro ⟨hm, hl⟩
            exact ⟨List.mem_cons_of_mem j hm, hl⟩
          · rintro ⟨hm, hl⟩
            rcases List.mem_cons.1 hm with he | hm'
            · exact absurd he.symm hji
            · exact ⟨hm', hl⟩
        rw [hset, if_congr hmem rfl rfl]
    · have hout : (setCellGray g j).isCellColored.getD i false = false :=
        getD_of_length_le _ _ _ (by omega)
      have hout' : g.isCellColored.getD i false = false :=
        getD_of_length_le _ _ _ (by omega)
      rw [if_neg (fun h => hiLen h.2), if_neg (fun h => hiLen h.2), hout, hout']

/-- The column loop of `clearRows` as a fold over precomputed indices. -/
theorem row_fold_eq (w : Nat) (r : Nat) :
    ∀ (cols : List Nat) (g : GridState), g.width = w →
      cols.foldl (fun g (col : Nat) => setCellGray g (getCellIndex g (r : Int) (col : Int))) g =
      (cols.map (fun col : Nat => ((r : Int) * w + col))).foldl (fun g j => setCellGray g j) g := by
  intro cols
  induction cols with
  | nil => intro g _; rfl
  | cons col cols ih =>
    intro g hw
    rw [List.map_cons, List.foldl_cons, List.foldl_cons]
    have hidx : getCellIndex g r col = (r : Int) * w + col := by
      unfold getCellIndex; rw [hw]
    rw [hidx]
    exact ih _ ((setCellGray_sec g _).width_eq.trans hw)

/-- The nested row/column loops of `clearRows` as one flat index fold. -/
theorem rows_fold_eq (w : Nat) :
    ∀ (rows : List Nat) (g : GridState), g.width = w →
      rows.foldl
        (fun g (row : Nat) =>
          (List.range g.width).foldl
            (fun g (col : Nat) => setCellGray g (getCellIndex g (row : Int) (col : Int))) g)
        g =
      (rows.flatMap (fun row => (List.range w).map (fun col : Nat => ((row : Int) * w + col)))).foldl
        (fun g j => setCellGray g j) g := by
  intro rows
  induction rows with
  | nil => intro g _; rfl
  | cons r rows ih =>
    intro g hw
    rw [List.flatMap_cons, List.foldl_append, List.foldl_cons]
    have h1 : (List.range g.width).foldl
        (fun g (col : Nat) => setCellGray g (getCellIndex g (r : Int) (col : Int))) g =
        ((List.range w).map (fun col : Nat => ((r : Int) * w + col))).foldl
          (fun g j => setCellGray g j) g := by
      rw [hw]
      exact row_fold_eq w r (List.range w) g hw
    rw [h1]
    exact ih _ ((foldl_sec _ (fun g j => setCellGray_sec g j) _ g).width_eq.trans hw)

/-- `clearRows` as one flat `setCellGray` fold. -/
theorem clearRows_eq (g : GridState) (s e : Nat) :
    clearRows g s e =
      ((List.range' s (e + 1 - s)).flatMap
        (fun row => (List.range g.width).map (fun col : Nat => ((row : Int) * g.width + col)))).foldl
        (fun g j => setCellGray g j) g := by
  unfold clearRows
  exact rows_fold_eq g.width (List.range' s (e + 1 - s)) g rfl

/-- `clearRows` can only turn cells off. -/
theorem clearRows_getD_true (g : GridState) (s e : Nat) (i : Nat)
    (h : (clearRows g s e).isCellColored.getD i false = true) :
    g.isCellColored.getD i false = true := by
  rw [clearRows_eq, setFold_getD] at h
  split at h
  · exact absurd h (by simp)
  · exact h

/-- Every cell of the cleared row range reads `false` after `clearRows`. -/
theorem clearRows_getD_false_of_mem (g : GridState) (s e : Nat) (row col : Nat)
    (hs : s ≤ row) (he : row ≤ e) (hcol : col < g.width) :
    (clearRows g s e).isCellColored.getD (row * g.width + col) false = false := by
  rw [clearRows_eq, setFold_getD]
  by_cases hlen : row * g.width + col < g.isCellColored.length
  · have hmem : ((row * g.width + col : Nat) : Int) ∈
        (List.range' s (e + 1 - s)).flatMap
          (fun row => (List.range g.width).map (fun col : Nat => ((row : Int) * g.width + col))) := by
      rw [List.mem_flatMap]
      refine ⟨row, ?_, ?_⟩
      · rw [List.mem_range']
        exact ⟨row - s, by omega, by omega⟩
      · rw [List.mem_map]
        exact ⟨col, by rw [List.mem_range]; exact hcol, by push_cast; ring⟩
    rw [if_pos ⟨hmem, hlen⟩]
  · rw [if_neg (fun h => hlen h.2)]
    exact getD_of_length_le _ _ _ (by omega)

/-- With a fully occupied bottom row, row 0 counts `width` colored cells. -/
theorem coloredCount_row0_full (g : GridState)
    (hbottom : ∀ col, col < g.width → g.isCellColored.getD col false = true) :
    getColoredCellCountInRow g 0 = g.width := by
  unfold getColoredCellCountInRow
  have hall : ∀ col ∈ List.range g.width,
      isColored g (getCellIndex g ((0 : Nat) : Int) (col : Int)) = true := by
    intro col hcol
    rw [List.mem_range] at hcol
    have hidx : getCellIndex g ((0 : Nat) : Int) (col : Int) = (col : Int) := by
      unfold getCellIndex
      push_cast
      ring
    rw [hidx]
    unfold isColored
    simp only [Int.natCast_nonneg, Int.toNat_natCast, decide_eq_true_eq,
      decide_eq_true (Int.natCast_nonneg col), Bool.true_and]
    exact hbottom col hcol
  calc (List.range g.width).countP
        (fun col : Nat => isColored g (getCellIndex g ((0 : Nat) : Int) (col : Int)))
      = (List.range g.width).length := List.countP_eq_length.mpr hall
    _ = g.width := List.length_range g.width

/-- With everything above row 0 empty, any row `r ≥ 1` counts 0 cells. -/
theorem coloredCount_row_empty (g : GridState) (r : Nat) (hr : 1 ≤ r)
    (hempty : ∀ i, g.width ≤ i → g.isCellColored.getD i false = false) :
    getColoredCellCountInRow g r = 0 := by
  unfold getColoredCellCountInRow
  rw [List.countP_eq_zero]
  intro col hcol
  rw [List.mem_range] at hcol
  have hidx : getCellIndex g (r : Int) (col : Int) = ((r * g.width + col : Nat) : Int) := by
    unfold getCellIndex
    push_cast
    ring
  rw [hidx]
  unfold isColored
  simp only [Int.natCast_nonneg, Int.toNat_natCast,
    decide_eq_true (Int.natCast_nonneg (r * g.width + col : Nat)), Bool.true_and,
    Bool.not_eq_true]
  have hge : g.width ≤ r * g.width + col := by
    have h1 : g.width ≤ r * g.width := Nat.le_mul_of_pos_left g.width hr
    omega
  exact hempty _ hge

/-- Under the C6 hypotheses the compaction scan counts one cleared row,
stops at row 1, and leaves the grid untouched. -/
theorem clearLoop_eval (g : GridState) (hw : 0 < g.width) (hh : 0 < g.height)
    (hbottom : ∀ col, col < g.width → g.isCellColored.getD col false = true)
    (hempty : ∀ i, g.width ≤ i → g.isCellColored.getD i false = false) :
    clearLoop g.height g 0 0 0 = (g, 0, 1, 1) := by
  cases hht : g.height with
  | zero => omega
  | succ h1 =>
    simp only [clearLoop]
    rw [if_pos (by omega : (0 : Nat) < g.height),
      coloredCount_row0_full g hbottom, if_neg (by omega : ¬g.width = 0), if_pos rfl]
    cases h1 with
    | zero => rfl
    | succ h2 =>
      simp only [clearLoop]
      rw [if_pos (by omega : (1 : Nat) < g.height),
        coloredCount_row_empty g 1 (le_refl 1) hempty, if_pos rfl]

/-- Claim C6: on a grid whose bottom row is fully occupied and whose every
other cell is empty, `clearCompletedRows` leaves every cell empty and
reports exactly 1 cleared line to the score tracker. -/
theorem clearCompletedRows_single_bottom_row (g : GridState)
    (hw : 0 < g.width) (hh : 0 < g.height)
    (hbottom : ∀ col, col < g.width → g.isCellColored.getD col false = true)
    (hempty : ∀ i, g.width ≤ i → g.isCellColored.getD i false = false) :
    (∀ i, (clearCompletedRows g).isCellColored.getD i false = false) ∧
    (clearCompletedRows g).stats = g.stats.addLinesCleared 1 := by
  have hscan := clearLoop_eval g hw hh hbottom hempty
  unfold clearCompletedRows
  rw [hscan]
  constructor
  · intro i
    show (clearRows g 0 (min 1 (g.height - 1))).isCellColored.getD i false = false
    by_cases hcase :
        (clearRows g 0 (min 1 (g.height - 1))).isCellColored.getD i false = true
    · exfalso
      have hold := clearRows_getD_true g 0 (min 1 (g.height - 1)) i hcase
      have hiw : i < g.width := by
        by_contra hge
        rw [hempty i (by omega)] at hold
        exact absurd hold (by simp)
      have hfalse :=
        clearRows_getD_false_of_mem g 0 (min 1 (g.height - 1)) 0 i (le_refl 0)
          (Nat.zero_le _) hiw
      rw [Nat.zero_mul, Nat.zero_add] at hfalse
      rw [hfalse] at hcase
      exact absurd hcase (by simp)
    · simpa using hcase
  · show ((clearRows g 0 (min 1 (g.height - 1))).stats.addLinesCleared ((1 : Nat) : Int)) =
      g.stats.addLinesCleared 1
    rw [(clearRows_sec g 0 (min 1 (g.height - 1))).stats_eq]
    norm_num

/-- The witness grid for C6: a 3×3 grid with exactly the bottom row filled. -/
def clearWitnessGrid : GridState :=
  { Grid.new 3 3 4 500 [] with
    isCellColored := [true, true, true] ++ List.replicate 6 false }

/-- Witness for C6: the theorem applied to `clearWitnessGrid`. -/
theorem clearCompletedRows_single_bottom_row_witness :
    (∀ i, (clearCompletedRows clearWitnessGrid).isCellColored.getD i false = false) ∧
    (clearCompletedRows clearWitnessGrid).stats =
      clearWitnessGrid.stats.addLinesCleared 1 := by
  apply clearCompletedRows_single_bottom_row clearWitnessGrid (by decide) (by decide)
    (by decide)
  intro i hi
  have hi3 : 3 ≤ i := hi
  rcases Nat.lt_or_ge i 9 with h9 | h9
  · interval_cases i <;> decide
  · refine getD_of_length_le _ _ _ ?_
    have hlen : clearWitnessGrid.isCellColored.length = 9 := by decide
    omega

/-! ## State-machine invariants (Claims C1 and C5) -/

theorem SameExceptCells.height_eq {g h : GridState} (hs : SameExceptCells g h) :
    h.height = g.height := hs.2.1

theorem SameExceptCells.piece_eq {g h : GridState} (hs : SameExceptCells g h) :
    h.currentTetromino = g.currentTetromino := hs.2.2.2.2.1

theorem SameExceptCells.timer_eq {g h : GridState} (hs : SameExceptCells g h) :
    h.lockDelayStartTime = g.lockDelayStartTime := hs.2.2.2.2.2.2.2.2.1

/-- `updateShadow` only replaces the shadow cell set. -/
theorem updateShadow_eq (g : GridState) :
    ∃ s, updateShadow g = { g with shadowCells := s } := by
  unfold updateShadow clearShadow getHardDropPosition
  cases hc : g.currentTetromino with
  | none => exact ⟨[], by simp [hc]⟩
  | some p =>
    simp only [hc]
    split
    · exact ⟨[], rfl⟩
    · exact ⟨_, rfl⟩

/-- `clearCompletedRows` keeps the active piece. -/
theorem clearCompletedRows_piece (g : GridState) :
    (clearCompletedRows g).currentTetromino = g.currentTetromino := by
  unfold clearCompletedRows
  exact ((clearRows_sec _ _ _).piece_eq).trans (clearLoop_sec _ _ _ _ _).piece_eq

/-- `clearCompletedRows` keeps the lock timer. -/
theorem clearCompletedRows_timer (g : GridState) :
    (clearCompletedRows g).lockDelayStartTime = g.lockDelayStartTime := by
  unfold clearCompletedRows
  exact ((clearRows_sec _ _ _).timer_eq).trans (clearLoop_sec _ _ _ _ _).timer_eq

/-- The collision invariant: whenever an active piece exists, its placement
validates against the static grid. -/
def ActiveOK (g : GridState) : Prop :=
  ∀ p, g.currentTetromino = some p → canPlaceTetromino g p = true

/-- `spawnTetromino` establishes (or keeps) the collision invariant. -/
theorem spawn_activeOK (g : GridState) (h : ActiveOK g) : ActiveOK (spawnTetromino g) := by
  cases hc : g.currentTetromino with
  | some p => simp only [spawnTetromino, hc]; exact h
  | none =>
    simp only [spawnTetromino, hc]
    obtain ⟨bag, rnd, hg1⟩ := getRandomTetromino_snd_eq g
    split
    · rename_i hcp
      obtain ⟨s, hs⟩ := updateShadow_eq
        { (getRandomTetromino g).2 with
          currentTetromino := some
            { tetromino := (getRandomTetromino g).1
              centerRow := ((getRandomTetromino g).2.height : Int) - 1
              centerCol := ((getRandomTetromino g).2.width / 2 : Nat)
              rotatedPositions := none, rotationState := .s0 }
          lockDelayStartTime := none, canHold := true }
      rw [hs]
      intro q hq
      have hq' : some
          ({ tetromino := (getRandomTetromino g).1
             centerRow := ((getRandomTetromino g).2.height : Int) - 1
             centerCol := ((getRandomTetromino g).2.width / 2 : Nat)
             rotatedPositions := none, rotationState := .s0 } : ActivePiece) = some q := hq
      cases hq'
      exact hcp
    · intro q hq
      rw [hg1] at hq
      have hq' : g.currentTetromino = some q := hq
      rw [hc] at hq'
      exact absurd hq' (by simp)

/-- `commitTetromino` with an active piece re-establishes the invariant via
the guarded respawn. -/
theorem commit_some_activeOK (g : GridState) (p : ActivePiece)
    (hc : g.currentTetromino = some p) : ActiveOK (commitTetromino g) := by
  simp only [commitTetromino, hc]
  apply spawn_activeOK
  intro q hq
  rw [clearCompletedRows_piece] at hq
  exact absurd hq (by simp)

/-- `commitTetromino` preserves the collision invariant. -/
theorem commit_activeOK (g : GridState) (h : ActiveOK g) : ActiveOK (commitTetromino g) := by
  cases hc : g.currentTetromino with
  | none => simp only [commitTetromino, hc]; exact h
  | some p => exact commit_some_activeOK g p hc

/-- `applyGravity` preserves the collision invariant. -/
theorem applyGravity_activeOK (g : GridState) (now : Int) (h : ActiveOK g) :
    ActiveOK (applyGravity g now) := by
  cases hc : g.currentTetromino with
  | none =>
    simp only [applyGravity, hc]
    intro q hq
    rw [(applyEndGravity_sec g).piece_eq, hc] at hq
    exact absurd hq (by simp)
  | some p =>
    simp only [applyGravity, hc]
    by_cases hdown : canPlaceTetromino g { p with centerRow := p.centerRow - 1 }
    · rw [if_pos hdown]
      obtain ⟨s, hs⟩ := updateShadow_eq
        { g with lockDelayStartTime := none
                 currentTetromino := some { p with centerRow := p.centerRow - 1 } }
      rw [hs]
      intro q hq
      have hq' : some ({ p with centerRow := p.centerRow - 1 } : ActivePiece) = some q := hq
      cases hq'
      exact hdown
    · rw [if_neg hdown]
      cases ht : g.lockDelayStartTime with
      | none =>
        intro q hq
        have hq' : some p = some q := hq
        cases hq'
        exact h p hc
      | some t0 =>
        show ActiveOK (if (g.lockDelayMs : Int) ≤ now - t0 then commitTetromino g else g)
        split
        · exact commit_some_activeOK g p hc
        · exact h

/-- `moveTetromino` preserves the collision invariant. -/
theorem moveTetromino_activeOK (g : GridState) (d : Int) (h : ActiveOK g) :
    ActiveOK (moveTetromino g d).1 := by
  cases hc : g.currentTetromino with
  | none => simp only [moveTetromino, hc]; exact h
  | some p =>
    simp only [moveTetromino, hc]
    by_cases hcp : canPlaceTetromino g { p with centerCol := p.centerCol + d }
    · rw [if_neg (by simp [hcp])]
      obtain ⟨s, hs⟩ := updateShadow_eq
        { g with lockDelayStartTime := none
                 currentTetromino := some { p with centerCol := p.centerCol + d } }
      show ActiveOK (updateShadow _)
      rw [hs]
      intro q hq
      have hq' : some ({ p with centerCol := p.centerCol + d } : ActivePiece) = some q := hq
      cases hq'
      exact hcp
    · rw [if_pos (by simp [hcp])]
      exact h

/-- `softDrop` preserves the collision invariant. -/
theorem softDrop_activeOK (g : GridState) (h : ActiveOK g) : ActiveOK (softDrop g).1 := by
  cases hc : g.currentTetromino with
  | none => simp only [softDrop, hc]; exact h
  | some p =>
    simp only [softDrop, hc]
    by_cases hcp : canPlaceTetromino g { p with centerRow := p.centerRow - 1 }
    · rw [if_neg (by simp [hcp])]
      intro q hq
      have hq' : some ({ p with centerRow := p.centerRow - 1 } : ActivePiece) = some q := hq
      cases hq'
      exact hcp
    · rw [if_pos (by simp [hcp])]
      exact h

/-- The kick search preserves the collision invariant. -/
theorem tryKicks_activeOK (g : GridState) (p : ActivePiece) (rotated : List (Int × Int))
    (nextState : RotState) (h : ActiveOK g) :
    ∀ l, ActiveOK (tryKicks g p rotated nextState l).1 := by
  intro l
  induction l with
  | nil => exact h
  | cons o rest ih =>
    simp only [tryKicks]
    split
    · rename_i hcp
      obtain ⟨s, hs⟩ := updateShadow_eq
        { g with lockDelayStartTime := none
                 currentTetromino := some
                  { p with
                    centerRow := p.centerRow + o.1
                    centerCol := p.centerCol + o.2
                    rotatedPositions := some rotated
                    rotationState := nextState } }
      show ActiveOK (updateShadow _)
      rw [hs]
      intro q hq
      have hq' : some ({ p with
          centerRow := p.centerRow + o.1
          centerCol := p.centerCol + o.2
          rotatedPositions := some rotated
          rotationState := nextState } : ActivePiece) = some q := hq
      cases hq'
      exact hcp
    · exact ih

/-- `rotate` preserves the collision invariant. -/
theorem rotate_activeOK (g : GridState) (clockwise : Bool) (h : ActiveOK g) :
    ActiveOK (rotate g clockwise).1 := by
  cases hc : g.currentTetromino with
  | none => simp only [rotate, hc]; exact h
  | some p =>
    simp only [rotate, hc]
    by_cases hO : p.tetromino = Shape.O
    · simp only [hO, if_pos rfl]; exact h
    · rw [if_neg hO]
      cases hk : getKickTable p.tetromino with
      | none => exact h
      | some kickTable =>
        cases hko : kickTable p.rotationState
            (getRotationTransition p.rotationState clockwise) with
        | none => simp only [hko]; exact h
        | some kickOffsets =>
          simp only [hko]
          exact tryKicks_activeOK g p _ _ h kickOffsets

/-- A successful hold swap leaves a validated active piece. -/
theorem hold_swap_activeOK (g₁ : GridState) (cand : ActivePiece) (temp : Shape)
    (hcp : canPlaceTetromino g₁ cand = true) :
    ActiveOK
      { updateShadow { g₁ with currentTetromino := some cand, lockDelayStartTime := none } with
        heldTetromino := some temp, canHold := false } := by
  obtain ⟨s, hs⟩ :=
    updateShadow_eq { g₁ with currentTetromino := some cand, lockDelayStartTime := none }
  rw [hs]
  intro q hq
  have hq' : some cand = some q := hq
  cases hq'
  exact hcp

/-- `holdTetromino` preserves the collision invariant. -/
theorem hold_activeOK (g : GridState) (h : ActiveOK g) : ActiveOK (holdTetromino g).1 := by
  cases hc : g.currentTetromino with
  | none => simp only [holdTetromino, hc]; exact h
  | some p =>
    simp only [holdTetromino, hc]
    split
    · exact h
    · split
      · split
        · intro q hq
          have hq' : g.currentTetromino = some q := hq
          exact h q hq'
        · rename_i hcp
          exact hold_swap_activeOK _ _ _ (by simpa using hcp)
      · intro q hq
        have hq' :
            (spawnTetromino { clearShadow g with currentTetromino := none }).currentTetromino =
              some q := hq
        refine spawn_activeOK _ ?_ q hq'
        intro r hr
        have hr' : (none : Option ActivePiece) = some r := hr
        exact absurd hr' (by simp)

/-- `hardDrop` preserves the collision invariant. -/
theorem hardDrop_activeOK (g : GridState) (h : ActiveOK g) : ActiveOK (hardDrop g).1 := by
  cases hc : g.currentTetromino with
  | none => simp only [hardDrop, hc]; exact h
  | some p =>
    simp only [hardDrop, hc]
    split
    · exact commit_some_activeOK _ { p with centerRow := dropAux g p g.height p.centerRow } rfl
    · exact commit_some_activeOK _ p hc

/-- The collision invariant in the claim's terms: every absolute cell of the
active piece is inside `[0,height) × [0,width)` and not a colored static
cell. -/
def ActiveInv (g : GridState) : Prop :=
  ∀ p, g.currentTetromino = some p →
    ∀ rc ∈ getTetrominoPositions p,
      0 ≤ rc.1 ∧ rc.1 < (g.height : Int) ∧ 0 ≤ rc.2 ∧ rc.2 < (g.width : Int) ∧
        isColored g (getCellIndex g rc.1 rc.2) = false

/-- `isValidPosition` decides exactly in-bounds-and-uncolored. -/
theorem isValidPosition_iff (g : GridState) (r c : Int) :
    isValidPosition g r c = true ↔
      (0 ≤ r ∧ r < (g.height : Int) ∧ 0 ≤ c ∧ c < (g.width : Int) ∧
        isColored g (getCellIndex g r c) = false) := by
  unfold isValidPosition
  split
  · rename_i hcond
    simp only [Bool.false_eq_true, false_iff]
    simp only [Bool.or_eq_true, decide_eq_true_eq] at hcond
    rintro ⟨h1, h2, h3, h4, _⟩
    rcases hcond with ((hx | hx) | hx) | hx <;> omega
  · rename_i hcond
    simp only [Bool.or_eq_true, decide_eq_true_eq, not_or] at hcond
    obtain ⟨⟨⟨h1, h2⟩, h3⟩, h4⟩ := hcond
    rw [Bool.not_eq_true']
    constructor
    · intro h5
      exact ⟨by omega, by omega, by omega, by omega, h5⟩
    · intro hh
      exact hh.2.2.2.2

/-- `canPlaceTetromino` decides the cell-wise invariant. -/
theorem canPlace_iff (g : GridState) (p : ActivePiece) :
    canPlaceTetromino g p = true ↔
      ∀ rc ∈ getTetrominoPositions p,
        0 ≤ rc.1 ∧ rc.1 < (g.height : Int) ∧ 0 ≤ rc.2 ∧ rc.2 < (g.width : Int) ∧
          isColored g (getCellIndex g rc.1 rc.2) = false := by
  unfold canPlaceTetromino
  rw [List.all_eq_true]
  exact forall₂_congr fun rc _ => isValidPosition_iff g rc.1 rc.2

theorem activeInv_iff (g : GridState) : ActiveInv g ↔ ActiveOK g :=
  forall₂_congr fun p _ => (canPlace_iff g p).symm

/-- Claim C1: in every state satisfying the collision invariant — an active
piece, when present, has its 4 absolute cells inside the playfield and off
the colored static cells — each public operation (`spawnTetromino`,
`moveLeft`, `moveRight`, `moveDown`/`softDrop`, `rotate`, `holdTetromino`,
`hardDrop`, `update`) preserves the invariant; since the fresh grid (no
piece) satisfies it, it holds in every reachable state. -/
theorem activePiece_collision_invariant_preserved (g : GridState) (hInv : ActiveInv g) :
    ActiveInv (spawnTetromino g) ∧
    ActiveInv (moveLeft g).1 ∧ ActiveInv (moveRight g).1 ∧
    ActiveInv (moveDown g).1 ∧ ActiveInv (softDrop g).1 ∧
    (∀ clockwise, ActiveInv (rotate g clockwise).1) ∧
    ActiveInv (holdTetromino g).1 ∧ ActiveInv (hardDrop g).1 ∧
    (∀ now, ActiveInv (update g now)) := by
  rw [activeInv_iff] at hInv
  simp only [activeInv_iff]
  exact ⟨spawn_activeOK g hInv, moveTetromino_activeOK g (-1) hInv,
    moveTetromino_activeOK g 1 hInv, softDrop_activeOK g hInv, softDrop_activeOK g hInv,
    fun clockwise => rotate_activeOK g clockwise hInv, hold_activeOK g hInv,
    hardDrop_activeOK g hInv, fun now => applyGravity_activeOK g now hInv⟩

/-- Witness for C1: the theorem applied to a fresh 5×4 grid (which satisfies
the invariant vacuously). -/
theorem activePiece_collision_invariant_preserved_witness :
    ActiveInv (spawnTetromino (Grid.new 5 4 4 500 [])) ∧
    (∀ now, ActiveInv (update (Grid.new 5 4 4 500 []) now)) := by
  have h := activePiece_collision_invariant_preserved (Grid.new 5 4 4 500 [])
    (by intro p hp; exact absurd hp (by simp [Grid.new]))
  exact ⟨h.1, h.2.2.2.2.2.2.2.2⟩

/-- The sound direction of the lock-timer invariant: whenever the timer is
armed and an active piece exists, that piece cannot move one row down. -/
def LockOK (g : GridState) : Prop :=
  ∀ p t, g.lockDelayStartTime = some t → g.currentTetromino = some p →
    canPlaceTetromino g { p with centerRow := p.centerRow - 1 } = false

/-- `spawnTetromino` preserves the lock-timer invariant. -/
theorem spawn_lockOK (g : GridState) (h : LockOK g) : LockOK (spawnTetromino g) := by
  cases hc : g.currentTetromino with
  | some p => simp only [spawnTetromino, hc]; exact h
  | none =>
    simp only [spawnTetromino, hc]
    obtain ⟨bag, rnd, hg1⟩ := getRandomTetromino_snd_eq g
    split
    · obtain ⟨s, hs⟩ := updateShadow_eq
        { (getRandomTetromino g).2 with
          currentTetromino := some
            { tetromino := (getRandomTetromino g).1
              centerRow := ((getRandomTetromino g).2.height : Int) - 1
              centerCol := ((getRandomTetromino g).2.width / 2 : Nat)
              rotatedPositions := none, rotationState := .s0 }
          lockDelayStartTime := none, canHold := true }
      rw [hs]
      intro p t ht
      have ht' : (none : Option Int) = some t := ht
      exact absurd ht' (by simp)
    · intro p t ht hp
      rw [hg1] at hp
      have hp' : g.currentTetromino = some p := hp
      rw [hc] at hp'
      exact absurd hp' (by simp)

/-- `commitTetromino` with an active piece preserves the lock-timer
invariant (the timer is cleared, and the respawn re-arms nothing). -/
theorem commit_some_lockOK (g : GridState) (p : ActivePiece)
    (hc : g.currentTetromino = some p) : LockOK (commitTetromino g) := by
  simp only [commitTetromino, hc]
  apply spawn_lockOK
  intro q t ht hq
  rw [clearCompletedRows_piece] at hq
  have hq' : (none : Option ActivePiece) = some q := hq
  exact absurd hq' (by simp)

/-- `applyGravity` preserves the lock-timer invariant: the timer is armed
only at the moment the descent check fails. -/
theorem applyGravity_lockOK (g : GridState) (now : Int) (h : LockOK g) :
    LockOK (applyGravity g now) := by
  cases hc : g.currentTetromino with
  | none =>
    simp only [applyGravity, hc]
    intro p t ht hp
    rw [(applyEndGravity_sec g).piece_eq, hc] at hp
    exact absurd hp (by simp)
  | some p =>
    simp only [applyGravity, hc]
    by_cases hdown : canPlaceTetromino g { p with centerRow := p.centerRow - 1 }
    · rw [if_pos hdown]
      obtain ⟨s, hs⟩ := updateShadow_eq
        { g with lockDelayStartTime := none
                 currentTetromino := some { p with centerRow := p.centerRow - 1 } }
      rw [hs]
      intro q t ht
      have ht' : (none : Option Int) = some t := ht
      exact absurd ht' (by simp)
    · rw [if_neg hdown]
      cases ht0 : g.lockDelayStartTime with
      | none =>
        intro q t ht hq
        have hq' : some p = some q := hq
        cases hq'
        simpa using hdown
      | some t0 =>
        show LockOK (if (g.lockDelayMs : Int) ≤ now - t0 then commitTetromino g else g)
        split
        · exact commit_some_lockOK g p hc
        · exact h

/-- `moveTetromino` preserves the lock-timer invariant. -/
theorem moveTetromino_lockOK (g : GridState) (d : Int) (h : LockOK g) :
    LockOK (moveTetromino g d).1 := by
  cases hc : g.currentTetromino with
  | none => simp only [moveTetromino, hc]; exact h
  | some p =>
    simp only [moveTetromino, hc]
    split
    · exact h
    · obtain ⟨s, hs⟩ := updateShadow_eq
        { g with lockDelayStartTime := none
                 currentTetromino := some { p with centerCol := p.centerCol + d } }
      show LockOK (updateShadow _)
      rw [hs]
      intro q t ht
      have ht' : (none : Option Int) = some t := ht
      exact absurd ht' (by simp)

/-- `softDrop` preserves the lock-timer invariant. -/
theorem softDrop_lockOK (g : GridState) (h : LockOK g) : LockOK (softDrop g).1 := by
  cases hc : g.currentTetromino with
  | none => simp only [softDrop, hc]; exact h
  | some p =>
    simp only [softDrop, hc]
    split
    · exact h
    · intro q t ht
      have ht' : (none : Option Int) = some t := ht
      exact absurd ht' (by simp)

/-- The kick search preserves the lock-timer invariant. -/
theorem tryKicks_lockOK (g : GridState) (p : ActivePiece) (rotated : List (Int × Int))
    (nextState : RotState) (h : LockOK g) :
    ∀ l, LockOK (tryKicks g p rotated nextState l).1 := by
  intro l
  induction l with
  | nil => exact h
  | cons o rest ih =>
    simp only [tryKicks]
    split
    · obtain ⟨s, hs⟩ := updateShadow_eq
        { g with lockDelayStartTime := none
                 currentTetromino := some
                  { p with
                    centerRow := p.centerRow + o.1
                    centerCol := p.centerCol + o.2
                    rotatedPositions := some rotated
                    rotationState := nextState } }
      show LockOK (updateShadow _)
      rw [hs]
      intro q t ht
      have ht' : (none : Option Int) = some t := ht
      exact absurd ht' (by simp)
    · exact ih

/-- `rotate` preserves the lock-timer invariant. -/
theorem rotate_lockOK (g : GridState) (clockwise : Bool) (h : LockOK g) :
    LockOK (rotate g clockwise).1 := by
  cases hc : g.currentTetromino with
  | none => simp only [rotate, hc]; exact h
  | some p =>
    simp only [rotate, hc]
    by_cases hO : p.tetromino = Shape.O
    · simp only [hO, if_pos rfl]; exact h
    · rw [if_neg hO]
      cases hk : getKickTable p.tetromino with
      | none => exact h
      | some kickTable =>
        cases hko : kickTable p.rotationState
            (getRotationTransition p.rotationState clockwise) with
        | none => simp only [hko]; exact h
        | some kickOffsets =>
          simp only [hko]
          exact tryKicks_lockOK g p _ _ h kickOffsets

/-- A successful hold swap leaves the timer cleared. -/
theorem hold_swap_lockOK (g₁ : GridState) (cand : ActivePiece) (temp : Shape) :
    LockOK
      { updateShadow { g₁ with currentTetromino := some cand, lockDelayStartTime := none } with
        heldTetromino := some temp, canHold := false } := by
  obtain ⟨s, hs⟩ :=
    updateShadow_eq { g₁ with currentTetromino := some cand, lockDelayStartTime := none }
  rw [hs]
  intro q t ht
  have ht' : (none : Option Int) = some t := ht
  exact absurd ht' (by simp)

/-- `holdTetromino` preserves the lock-timer invariant. -/
theorem hold_lockOK (g : GridState) (h : LockOK g) : LockOK (holdTetromino g).1 := by
  cases hc : g.currentTetromino with
  | none => simp only [holdTetromino, hc]; exact h
  | some p =>
    simp only [holdTetromino, hc]
    split
    · exact h
    · split
      · split
        · intro q t ht hq
          have ht' : g.lockDelayStartTime = some t := ht
          have hq' : g.currentTetromino = some q := hq
          exact h q t ht' hq'
        · exact hold_swap_lockOK _ _ _
      · intro q t ht hq
        have ht' :
            (spawnTetromino { clearShadow g with currentTetromino := none }).lockDelayStartTime =
              some t := ht
        have hq' :
            (spawnTetromino { clearShadow g with currentTetromino := none }).currentTetromino =
              some q := hq
        refine spawn_lockOK _ ?_ q t ht' hq'
        intro r u _ hr
        have hr' : (none : Option ActivePiece) = some r := hr
        exact absurd hr' (by simp)

/-- `hardDrop` preserves the lock-timer invariant. -/
theorem hardDrop_lockOK (g : GridState) (h : LockOK g) : LockOK (hardDrop g).1 := by
  cases hc : g.currentTetromino with
  | none => simp only [hardDrop, hc]; exact h
  | some p =>
    simp only [hardDrop, hc]
    split
    · exact commit_some_lockOK _ { p with centerRow := dropAux g p g.height p.centerRow } rfl
    · exact commit_some_lockOK _ p hc

/-- A successful horizontal move clears the lock timer. -/
theorem moveTetromino_true_timer (g : GridState) (d : Int) :
    (moveTetromino g d).2 = true → (moveTetromino g d).1.lockDelayStartTime = none := by
  cases hc : g.currentTetromino with
  | none => simp [moveTetromino, hc]
  | some p =>
    simp only [moveTetromino, hc]
    split
    · simp
    · intro _
      obtain ⟨s, hs⟩ := updateShadow_eq
        { g with lockDelayStartTime := none
                 currentTetromino := some { p with centerCol := p.centerCol + d } }
      show (updateShadow _).lockDelayStartTime = none
      rw [hs]

/-- A successful soft drop clears the lock timer. -/
theorem softDrop_true_timer (g : GridState) :
    (softDrop g).2 = true → (softDrop g).1.lockDelayStartTime = none := by
  cases hc : g.currentTetromino with
  | none => simp [softDrop, hc]
  | some p =>
    simp only [softDrop, hc]
    split
    · simp
    · intro _; rfl

/-- A successful kick application clears the lock timer. -/
theorem tryKicks_true_timer (g : GridState) (p : ActivePiece) (rotated : List (Int × Int))
    (nextState : RotState) :
    ∀ l, (tryKicks g p rotated nextState l).2 = true →
      (tryKicks g p rotated nextState l).1.lockDelayStartTime = none := by
  intro l
  induction l with
  | nil => simp [tryKicks]
  | cons o rest ih =>
    simp only [tryKicks]
    split
    · intro _
      obtain ⟨s, hs⟩ := updateShadow_eq
        { g with lockDelayStartTime := none
                 currentTetromino := some
                  { p with
                    centerRow := p.centerRow + o.1
                    centerCol := p.centerCol + o.2
                    rotatedPositions := some rotated
                    rotationState := nextState } }
      show (updateShadow _).lockDelayStartTime = none
      rw [hs]
    · exact ih

/-- A successful rotation clears the lock timer. -/
theorem rotate_true_timer (g : GridState) (clockwise : Bool) :
    (rotate g clockwise).2 = true → (rotate g clockwise).1.lockDelayStartTime = none := by
  cases hc : g.currentTetromino with
  | none => simp [rotate, hc]
  | some p =>
    simp only [rotate, hc]
    by_cases hO : p.tetromino = Shape.O
    · simp [hO]
    · rw [if_neg hO]
      cases hk : getKickTable p.tetromino with
      | none => simp
      | some kickTable =>
        cases hko : kickTable p.rotationState
            (getRotationTransition p.rotationState clockwise) with
        | none => simp [hko]
        | some kickOffsets =>
          simp only [hko]
          exact tryKicks_true_timer g p _ _ kickOffsets

/-- Claim C5 (amended): the lock-delay timer is sound but not eager — in any
state satisfying `LockOK` (a non-null timer implies the active piece, if
any, is blocked downward) every public operation preserves `LockOK`, and
every successful move, soft drop, or rotation clears the timer; the timer
is *not* necessarily present the moment a piece becomes blocked (it is
armed only by the next `update` tick that finds the piece blocked). -/
theorem lockTimer_sound_invariant (g : GridState) (hInv : LockOK g) :
    LockOK (spawnTetromino g) ∧ LockOK (moveLeft g).1 ∧ LockOK (moveRight g).1 ∧
    LockOK (moveDown g).1 ∧ LockOK (softDrop g).1 ∧
    (∀ clockwise, LockOK (rotate g clockwise).1) ∧
    LockOK (holdTetromino g).1 ∧ LockOK (hardDrop g).1 ∧
    (∀ now, LockOK (update g now)) ∧
    ((moveLeft g).2 = true → (moveLeft g).1.lockDelayStartTime = none) ∧
    ((moveRight g).2 = true → (moveRight g).1.lockDelayStartTime = none) ∧
    ((softDrop g).2 = true → (softDrop g).1.lockDelayStartTime = none) ∧
    (∀ clockwise, (rotate g clockwise).2 = true →
      (rotate g clockwise).1.lockDelayStartTime = none) :=
  ⟨spawn_lockOK g hInv, moveTetromino_lockOK g (-1) hInv, moveTetromino_lockOK g 1 hInv,
    softDrop_lockOK g hInv, softDrop_lockOK g hInv,
    fun clockwise => rotate_lockOK g clockwise hInv, hold_lockOK g hInv,
    hardDrop_lockOK g hInv, fun now => applyGravity_lockOK g now hInv,
    moveTetromino_true_timer g (-1), moveTetromino_true_timer g 1,
    softDrop_true_timer g, fun clockwise => rotate_true_timer g clockwise⟩

/-- The counterexample state for C5 as stated: a fresh 5×4 grid, spawn the I
piece, soft-drop it three times to the floor. -/
def lockCounterGrid : GridState :=
  (softDrop (softDrop (softDrop
    (spawnTetromino (Grid.new 5 4 4 500 [0, 0, 0, 0, 0, 0]))).1).1).1

/-- Counterexample for C5 as stated: in the reachable state
`lockCounterGrid` the active piece exists and is blocked downward, yet the
lock-delay timer is null (blocked-implies-armed fails until the next
`update` tick). -/
theorem blocked_piece_with_null_lockTimer :
    lockCounterGrid.currentTetromino = some ⟨Shape.I, 0, 2, none, .s0⟩ ∧
    canPlaceTetromino lockCounterGrid
      { (⟨Shape.I, 0, 2, none, .s0⟩ : ActivePiece) with centerRow := 0 - 1 } = false ∧
    lockCounterGrid.lockDelayStartTime = none := by
  refine ⟨by decide, by decide, by decide⟩

/-- Witness for C5 (amended): the theorem applied to a fresh grid (whose
timer is null, so `LockOK` holds vacuously). -/
theorem lockTimer_sound_invariant_witness :
    LockOK (spawnTetromino (Grid.new 5 4 4 500 [])) ∧
    (∀ now, LockOK (update (Grid.new 5 4 4 500 []) now)) := by
  have h := lockTimer_sound_invariant (Grid.new 5 4 4 500 [])
    (by intro p t ht hp; exact absurd ht (by simp [Grid.new]))
  exact ⟨h.1, h.2.2.2.2.2.2.2.2.1⟩

/-! ## Ghost/shadow projection (Claim C4) -/

/-- The cell indices occupied by a piece state. -/
def pieceCellIndices (g : GridState) (p : ActivePiece) : List Int :=
  (getTetrominoPositions p).map (fun rc => getCellIndex g rc.1 rc.2)

/-- A valid piece cell yields an in-range, unoccupied cell index. -/
theorem valid_cell_index (g : GridState) (rc : Int × Int)
    (h : 0 ≤ rc.1 ∧ rc.1 < (g.height : Int) ∧ 0 ≤ rc.2 ∧ rc.2 < (g.width : Int) ∧
      isColored g (getCellIndex g rc.1 rc.2) = false) :
    0 ≤ getCellIndex g rc.1 rc.2 ∧
    getCellIndex g rc.1 rc.2 < (g.width : Int) * (g.height : Int) ∧
    g.isCellColored.getD (getCellIndex g rc.1 rc.2).toNat false = false := by
  obtain ⟨h1, h2, h3, h4, h5⟩ := h
  have hw : (0 : Int) ≤ (g.width : Int) := Int.natCast_nonneg _
  have hidx : getCellIndex g rc.1 rc.2 = rc.1 * g.width + rc.2 := rfl
  have hpos : 0 ≤ rc.1 * (g.width : Int) + rc.2 := by positivity
  have hmul : (rc.1 + 1) * (g.width : Int) ≤ (g.height : Int) * (g.width : Int) :=
    mul_le_mul_of_nonneg_right (by omega) hw
  have hlt : rc.1 * (g.width : Int) + rc.2 < (g.width : Int) * (g.height : Int) := by
    have hexp : rc.1 * (g.width : Int) + (g.width : Int) ≤
        (g.height : Int) * (g.width : Int) := by nlinarith [hmul]
    nlinarith [hexp]
  refine ⟨by rw [hidx]; exact hpos, by rw [hidx]; exact hlt, ?_⟩
  unfold isColored at h5
  rw [hidx] at h5 ⊢
  have hdec : decide (0 ≤ rc.1 * (g.width : Int) + rc.2) = true := decide_eq_true hpos
  rw [hdec, Bool.true_and] at h5
  exact h5

/-- Cell indices determine row and column (for in-range columns). -/
theorem cellIndex_inj (w r₁ c₁ r₂ c₂ : Int) (hc₁ : 0 ≤ c₁ ∧ c₁ < w)
    (hc₂ : 0 ≤ c₂ ∧ c₂ < w) (h : r₁ * w + c₁ = r₂ * w + c₂) : r₁ = r₂ ∧ c₁ = c₂ := by
  have key : (r₁ - r₂) * w = c₂ - c₁ := by linear_combination h
  have hr : r₁ = r₂ := by
    rcases lt_trichotomy r₁ r₂ with hlt | heq | hgt
    · exfalso
      have h1 : r₁ - r₂ ≤ -1 := by omega
      have h2 : (r₁ - r₂) * w ≤ (-1) * w :=
        mul_le_mul_of_nonneg_right h1 (by omega)
      nlinarith [key, h2]
    · exact heq
    · exfalso
      have h1 : (1 : Int) ≤ r₁ - r₂ := by omega
      have h2 : (1 : Int) * w ≤ (r₁ - r₂) * w :=
        mul_le_mul_of_nonneg_right h1 (by omega)
      nlinarith [key, h2]
  refine ⟨hr, ?_⟩
  rw [hr] at h
  omega

/-- Every nonempty list of offsets has a row-maximal element. -/
theorem exists_max_row (l : List (Int × Int)) (hne : l ≠ []) :
    ∃ d ∈ l, ∀ e ∈ l, e.1 ≤ d.1 := by
  induction l with
  | nil => exact absurd rfl hne
  | cons a t ih =>
    cases t with
    | nil =>
      refine ⟨a, List.mem_cons_self a [], ?_⟩
      intro e he
      rcases List.mem_cons.1 he with rfl | he'
      · exact le_refl _
      · exact absurd he' (by simp)
    | cons b t' =>
      obtain ⟨d, hd, hmax⟩ := ih (by simp)
      by_cases hcmp : a.1 ≤ d.1
      · refine ⟨d, List.mem_cons_of_mem a hd, ?_⟩
        intro e he
        rcases List.mem_cons.1 he with rfl | he'
        · exact hcmp
        · exact hmax e he'
      · refine ⟨a, List.mem_cons_self a (b :: t'), ?_⟩
        intro e he
        rcases List.mem_cons.1 he with rfl | he'
        · exact le_refl _
        · exact le_trans (hmax e he') (by omega)

/-- Membership in a `shadowInsert` fold. -/
theorem mem_shadowFold (f : Int × Int → Int) :
    ∀ (ps : List (Int × Int)) (acc : List Int) (i : Int),
      (i ∈ ps.foldl (fun l rc => shadowInsert l (f rc)) acc) ↔
        (i ∈ acc ∨ ∃ rc ∈ ps, i = f rc) := by
  intro ps
  induction ps with
  | nil => intro acc i; simp
  | cons rc ps ih =>
    intro acc i
    rw [List.foldl_cons, ih]
    unfold shadowInsert
    constructor
    · rintro (hacc | ⟨e, he, hie⟩)
      · split at hacc
        · exact Or.inl hacc
        · rcases List.mem_append.1 hacc with hl | hr
          · exact Or.inl hl
          · have : i = f rc := by simpa using hr
            exact Or.inr ⟨rc, List.mem_cons_self rc ps, this⟩
      · exact Or.inr ⟨e, List.mem_cons_of_mem rc he, hie⟩
    · rintro (hacc | ⟨e, he, hie⟩)
      · left
        split
        · exact hacc
        · exact List.mem_append.2 (Or.inl hacc)
      · rcases List.mem_cons.1 he with rfl | he'
        · left
          split
          · rename_i hmem
            rw [hie]
            exact hmem
          · exact List.mem_append.2 (Or.inr (by simp [hie]))
        · exact Or.inr ⟨e, he', hie⟩

/-- The descent loop never moves the piece up. -/
theorem dropAux_le (g : GridState) (p : ActivePiece) :
    ∀ (fuel : Nat) (r : Int), dropAux g p fuel r ≤ r := by
  intro fuel
  induction fuel with
  | zero => intro r; exact le_refl r
  | succ fuel ih =>
    intro r
    simp only [dropAux]
    split
    · exact le_trans (ih (r - 1)) (by omega)
    · exact le_refl r

/-- The descent loop only moves through validated placements. -/
theorem dropAux_canPlace (g : GridState) (p : ActivePiece) :
    ∀ (fuel : Nat) (r : Int), canPlaceTetromino g { p with centerRow := r } = true →
      canPlaceTetromino g { p with centerRow := dropAux g p fuel r } = true := by
  intro fuel
  induction fuel with
  | zero => intro r h; exact h
  | succ fuel ih =>
    intro r h
    simp only [dropAux]
    split
    · rename_i hstep
      exact ih (r - 1) hstep
    · exact h

/-- With enough fuel (one more than the height of any cell of the piece),
the descent loop stops exactly at a blocked row. -/
theorem dropAux_blocked (g : GridState) (p : ActivePiece) (d : Int × Int)
    (hd : d ∈ p.rotatedPositions.getD (Tetromino.cellPositions p.tetromino)) :
    ∀ (fuel : Nat) (r : Int), canPlaceTetromino g { p with centerRow := r } = true →
      (r + d.1).toNat < fuel →
      canPlaceTetromino g { p with centerRow := dropAux g p fuel r - 1 } = false := by
  intro fuel
  induction fuel with
  | zero => intro r _ hbound; exact absurd hbound (by omega)
  | succ fuel ih =>
    intro r hcan hbound
    simp only [dropAux]
    split
    · rename_i hstep
      apply ih (r - 1) hstep
      have hcell := (canPlace_iff g _).mp hstep (r - 1 + d.1, p.centerCol + d.2)
        (List.mem_map.2 ⟨d, hd, rfl⟩)
      have h0 : 0 ≤ r - 1 + d.1 := hcell.1
      omega
    · rename_i hstep
      simpa using hstep

/-- What `updateShadow` computes: either the ghost coincides with the piece
(empty shadow), or the shadow is the piece displaced to some strictly lower
validated row. -/
theorem updateShadow_spec (g : GridState) (p : ActivePiece)
    (hp : g.currentTetromino = some p) (hcp : canPlaceTetromino g p = true) :
    (updateShadow g).shadowCells = [] ∨
    ∃ r' : Int, r' < p.centerRow ∧
      canPlaceTetromino g { p with centerRow := r' } = true ∧
      (updateShadow g).shadowCells =
        (getTetrominoPositions { p with centerRow := r' }).foldl
          (fun l rc => shadowInsert l (getCellIndex g rc.1 rc.2)) [] := by
  unfold updateShadow clearShadow getHardDropPosition
  simp only [hp]
  split
  · left; rfl
  · rename_i hneq
    right
    refine ⟨dropAux { g with currentTetromino := some p, shadowCells := [] }
      p g.height p.centerRow, ?_, ?_, ?_⟩
    · have hle :=
        dropAux_le { g with currentTetromino := some p, shadowCells := [] } p
          g.height p.centerRow
      have hne' :
          dropAux { g with currentTetromino := some p, shadowCells := [] } p
            g.height p.centerRow ≠ p.centerRow :=
        fun h => hneq ⟨h, trivial⟩
      omega
    · have hcp₀ : canPlaceTetromino { g with currentTetromino := some p, shadowCells := [] }
          { p with centerRow := p.centerRow } = true := hcp
      exact dropAux_canPlace { g with currentTetromino := some p, shadowCells := [] } p
        g.height p.centerRow hcp₀
    · rfl

/-- `softDrop` never touches the shadow cell set. -/
theorem softDrop_shadow (g : GridState) : (softDrop g).1.shadowCells = g.shadowCells := by
  cases hc : g.currentTetromino with
  | none => simp [softDrop, hc]
  | some p =>
    simp only [softDrop, hc]
    split
    · rfl
    · rfl

/-- `softDrop` never touches the occupancy buffer. -/
theorem softDrop_cells (g : GridState) : (softDrop g).1.isCellColored = g.isCellColored := by
  cases hc : g.currentTetromino with
  | none => simp [softDrop, hc]
  | some p =>
    simp only [softDrop, hc]
    split
    · rfl
    · rfl

/-- `updateShadow` never touches the occupancy buffer. -/
theorem updateShadow_cells (g : GridState) :
    (updateShadow g).isCellColored = g.isCellColored := by
  obtain ⟨s, h⟩ := updateShadow_eq g
  rw [h]

/-- Claim C4 (amended): with an active piece in a validated position, right
after `updateShadow` the ghost cell set is a strict subset of the in-bounds
unoccupied cells and is empty whenever it coincides (as a set) with the
piece's current cells. A successful `softDrop` does not recompute the
ghost; the ghost then remains a subset of the in-bounds unoccupied cells,
but the coincides-implies-empty property is not preserved (the drop can
land the piece exactly onto its non-empty ghost). -/
theorem ghost_strict_subset_and_softDrop (g : GridState) (p : ActivePiece)
    (hp : g.currentTetromino = some p)
    (hcp : canPlaceTetromino g p = true)
    (hne : p.rotatedPositions.getD (Tetromino.cellPositions p.tetromino) ≠ []) :
    (∀ i ∈ (updateShadow g).shadowCells,
      0 ≤ i ∧ i < (g.width : Int) * (g.height : Int) ∧
        g.isCellColored.getD i.toNat false = false) ∧
    (∃ j : Int, (0 ≤ j ∧ j < (g.width : Int) * (g.height : Int) ∧
        g.isCellColored.getD j.toNat false = false) ∧ j ∉ (updateShadow g).shadowCells) ∧
    ((∀ i : Int, i ∈ (updateShadow g).shadowCells ↔ i ∈ pieceCellIndices g p) →
      (updateShadow g).shadowCells = []) ∧
    ((softDrop (updateShadow g)).2 = true →
      ∀ i ∈ (softDrop (updateShadow g)).1.shadowCells,
        0 ≤ i ∧ i < (g.width : Int) * (g.height : Int) ∧
          (softDrop (updateShadow g)).1.isCellColored.getD i.toNat false = false) := by
  obtain hcase | ⟨r', hlt, hq, hS⟩ := updateShadow_spec g p hp hcp
  · refine ⟨?_, ?_, ?_, ?_⟩
    · intro i hi
      rw [hcase] at hi
      exact absurd hi (by simp)
    · obtain ⟨d₀, hd₀⟩ := List.exists_mem_of_ne_nil _ hne
      have hcell := (canPlace_iff g p).mp hcp (p.centerRow + d₀.1, p.centerCol + d₀.2)
        (List.mem_map.2 ⟨d₀, hd₀, rfl⟩)
      refine ⟨getCellIndex g (p.centerRow + d₀.1) (p.centerCol + d₀.2),
        valid_cell_index g _ hcell, ?_⟩
      rw [hcase]
      simp
    · intro _
      exact hcase
    · intro _ i hi
      rw [softDrop_shadow, hcase] at hi
      exact absurd hi (by simp)
  · have hmem : ∀ i ∈ (updateShadow g).shadowCells,
        ∃ e ∈ p.rotatedPositions.getD (Tetromino.cellPositions p.tetromino),
          i = getCellIndex g (r' + e.1) (p.centerCol + e.2) := by
      intro i hi
      rw [hS, mem_shadowFold] at hi
      rcases hi with hi | ⟨rc, hrc, rfl⟩
      · exact absurd hi (by simp)
      · obtain ⟨e, he, rfl⟩ := List.mem_map.1 hrc
        exact ⟨e, he, rfl⟩
    have hvalid : ∀ i ∈ (updateShadow g).shadowCells,
        0 ≤ i ∧ i < (g.width : Int) * (g.height : Int) ∧
          g.isCellColored.getD i.toNat false = false := by
      intro i hi
      obtain ⟨e, he, rfl⟩ := hmem i hi
      have hcell := (canPlace_iff g _).mp hq (r' + e.1, p.centerCol + e.2)
        (List.mem_map.2 ⟨e, he, rfl⟩)
      exact valid_cell_index g _ hcell
    obtain ⟨dm, hdm, hdmax⟩ := exists_max_row _ hne
    have hcellm := (canPlace_iff g p).mp hcp (p.centerRow + dm.1, p.centerCol + dm.2)
      (List.mem_map.2 ⟨dm, hdm, rfl⟩)
    have hnotin :
        getCellIndex g (p.centerRow + dm.1) (p.centerCol + dm.2) ∉
          (updateShadow g).shadowCells := by
      intro hin
      obtain ⟨e, he, heq⟩ := hmem _ hin
      have hcelle := (canPlace_iff g _).mp hq (r' + e.1, p.centerCol + e.2)
        (List.mem_map.2 ⟨e, he, rfl⟩)
      have heq' : (p.centerRow + dm.1) * (g.width : Int) + (p.centerCol + dm.2) =
          (r' + e.1) * (g.width : Int) + (p.centerCol + e.2) := heq
      have hinj := cellIndex_inj (g.width : Int) (p.centerRow + dm.1) (p.centerCol + dm.2)
        (r' + e.1) (p.centerCol + e.2) ⟨hcellm.2.2.1, hcellm.2.2.2.1⟩
        ⟨hcelle.2.2.1, hcelle.2.2.2.1⟩ heq'
      have hle := hdmax e he
      omega
    refine ⟨hvalid, ⟨_, valid_cell_index g _ hcellm, hnotin⟩, ?_, ?_⟩
    · intro hiff
      exfalso
      apply hnotin
      apply (hiff _).mpr
      unfold pieceCellIndices
      exact List.mem_map.2
        ⟨(p.centerRow + dm.1, p.centerCol + dm.2), List.mem_map.2 ⟨dm, hdm, rfl⟩, rfl⟩
    · intro _ i hi
      rw [softDrop_shadow] at hi
      have hv := hvalid i hi
      rw [softDrop_cells, updateShadow_cells]
      exact hv

/-- The counterexample state for C4: a fresh 5×4 grid, spawn the I piece,
then soft-drop it twice (one row above its ghost). -/
def ghostCounterGrid : GridState :=
  (softDrop (softDrop (spawnTetromino (Grid.new 5 4 4 500 [0, 0, 0, 0, 0, 0]))).1).1

/-- Counterexample for C4 as stated: from the reachable state
`ghostCounterGrid` a further `softDrop` succeeds (and does not recompute the
ghost); afterwards the ghost cell set coincides exactly with the active
piece's 4 cells yet is non-empty. -/
theorem ghost_coincides_nonempty_after_softDrop :
    (softDrop ghostCounterGrid).2 = true ∧
    (softDrop ghostCounterGrid).1.shadowCells = [1, 2, 3, 4] ∧
    (softDrop ghostCounterGrid).1.currentTetromino =
      some ⟨Shape.I, 0, 2, none, .s0⟩ ∧
    pieceCellIndices (softDrop ghostCounterGrid).1 ⟨Shape.I, 0, 2, none, .s0⟩ =
      [1, 2, 3, 4] ∧
    (softDrop ghostCounterGrid).1.shadowCells ≠ [] := by
  refine ⟨by decide, by decide, by decide, by decide, by decide⟩

/-- Witness for C4 (amended): the theorem applied to a freshly spawned I
piece on a 5×4 grid, its subset conjunct instantiated at ghost cell 1. -/
theorem ghost_strict_subset_and_softDrop_witness :
    0 ≤ (1 : Int) ∧
      (1 : Int) < ((spawnTetromino (Grid.new 5 4 4 500 [0, 0, 0, 0, 0, 0])).width : Int) *
        ((spawnTetromino (Grid.new 5 4 4 500 [0, 0, 0, 0, 0, 0])).height : Int) ∧
      (spawnTetromino (Grid.new 5 4 4 500 [0, 0, 0, 0, 0, 0])).isCellColored.getD
        (1 : Int).toNat false = false :=
  (ghost_strict_subset_and_softDrop
    (spawnTetromino (Grid.new 5 4 4 500 [0, 0, 0, 0, 0, 0]))
    ⟨Shape.I, 3, 2, none, .s0⟩ (by decide) (by decide) (by decide)).1 1 (by decide)

end WebgpuTetris
